import Mathlib

/-!
dnsme: request execution, rate-limit retry and record helpers (`api.go`).

A shallow embedding of `api.go`.  Go strings are Lean `String`s; where Go
works on the bytes of a string (`strconv`, `crypto/hmac`) the UTF-8 bytes are
taken with `bytes`.  Go `int` is 64 bits wide.
-/

namespace Dnsme

/-! ## Bytes of a Go string -/

/-- UTF-8 encoding of one code point, as a list of byte values. -/
def utf8 (c : Char) : List Nat :=
  let v := c.toNat
  if v < 0x80 then [v]
  else if v < 0x800 then [0xC0 + v / 64, 0x80 + v % 64]
  else if v < 0x10000 then [0xE0 + v / 4096, 0x80 + (v / 64) % 64, 0x80 + v % 64]
  else [0xF0 + v / 262144, 0x80 + (v / 4096) % 64, 0x80 + (v / 64) % 64, 0x80 + v % 64]

/-- Go `[]byte(s)`: the bytes of a string. -/
def bytes (s : String) : List Nat := s.data.flatMap utf8

/-! ## `strconv` (Go standard library), as used by `makeRequest` -/

/-- The two causes a `*strconv.NumError` can carry. -/
inductive NumError where
  | ErrSyntax
  | ErrRange
  deriving DecidableEq, Repr

/-- Go `strconv.IntSize` on a 64-bit platform. -/
def intSize : Nat := 64

/-- Go `maxUint64`. -/
def maxUint64 : Nat := 2 ^ 64 - 1

/-- Go `lower(c)`: `c | ('x' - 'X')`. -/
def lower (c : Nat) : Nat := c ||| 32

/-- The digit loop of `strconv.ParseUint` for an explicit base in `2..36`
(no underscores are accepted outside base 0).  `n` is a `uint64`. -/
def ParseUint.loop (base maxVal cutoff : Nat) : List Nat → Nat → Nat × Option NumError
  | [], n => (n, none)
  | c :: cs, n =>
    if 48 ≤ c ∧ c ≤ 57 then
      let d := c - 48
      if d ≥ base then (0, some .ErrSyntax)
      else if n ≥ cutoff then (maxVal, some .ErrRange)
      else
        let n := (n * base) % 2 ^ 64
        let n1 := (n + d) % 2 ^ 64
        if n1 < n ∨ n1 > maxVal then (maxVal, some .ErrRange)
        else ParseUint.loop base maxVal cutoff cs n1
    else if 97 ≤ lower c ∧ lower c ≤ 122 then
      let d := lower c - 97 + 10
      if d ≥ base then (0, some .ErrSyntax)
      else if n ≥ cutoff then (maxVal, some .ErrRange)
      else
        let n := (n * base) % 2 ^ 64
        let n1 := (n + d) % 2 ^ 64
        if n1 < n ∨ n1 > maxVal then (maxVal, some .ErrRange)
        else ParseUint.loop base maxVal cutoff cs n1
    else (0, some .ErrSyntax)

/-- Go `strconv.ParseUint(s, base, bitSize)` for `2 ≤ base ≤ 36` and
`0 ≤ bitSize ≤ 64`, the only way `Atoi` calls it (base 10, bitSize 0). -/
def ParseUint (s : List Nat) (base bitSize : Nat) : Nat × Option NumError :=
  if s = [] then (0, some .ErrSyntax)
  else
    let bitSize := if bitSize = 0 then intSize else bitSize
    let cutoff := maxUint64 / base + 1
    let maxVal := 2 ^ bitSize - 1
    ParseUint.loop base maxVal cutoff s 0

/-- Go `strconv.ParseInt(s, base, bitSize)`, same domain as `ParseUint`. -/
def ParseInt (s : List Nat) (base bitSize : Nat) : Int × Option NumError :=
  match s with
  | [] => (0, some .ErrSyntax)
  | c :: cs =>
    let neg := c = 45
    let s1 := if c = 43 ∨ c = 45 then cs else c :: cs
    let (un, err) := ParseUint s1 base bitSize
    if err = some .ErrSyntax then (0, err)
    else
      let bitSize := if bitSize = 0 then intSize else bitSize
      let cutoff := 2 ^ (bitSize - 1)
      if ¬ neg ∧ un ≥ cutoff then (((cutoff - 1 : Nat) : Int), some .ErrRange)
      else if neg ∧ un > cutoff then (-(cutoff : Int), some .ErrRange)
      else if neg then (-(un : Int), none) else ((un : Int), none)

/-- The digit loop of the fast path of `strconv.Atoi`; `ch -= '0'` is byte
arithmetic.  At most 18 digits are read, so `n` stays below `2^63`. -/
def Atoi.fast : List Nat → Nat → Option Nat
  | [], n => some n
  | ch :: cs, n =>
    let ch := (ch + 256 - 48) % 256
    if ch > 9 then none else Atoi.fast cs (n * 10 + ch)

/-- Go `strconv.Atoi` on the bytes of its argument (`intSize = 64`): the
value and the error it returns. -/
def AtoiBytes (s : List Nat) : Int × Option NumError :=
  if 0 < s.length ∧ s.length < 19 then
    match s with
    | [] => (0, some .ErrSyntax)
    | c :: cs =>
      let s1 := if c = 45 ∨ c = 43 then cs else c :: cs
      if s1.length < 1 then (0, some .ErrSyntax)
      else
        match Atoi.fast s1 0 with
        | none => (0, some .ErrSyntax)
        | some n => if c = 45 then (-(n : Int), none) else ((n : Int), none)
  else
    ParseInt s 10 0

/-- Go `strconv.Atoi(s)`. -/
def Atoi (s : String) : Int × Option NumError := AtoiBytes (bytes s)

/-! ## `net/http` values -/

/-- Go `error` values: one produced by a library call (transport, body read,
request construction, JSON), or one built by `errors.New`. -/
inductive GoError where
  | lib (msg : String)
  | New (text : String)
  deriving DecidableEq, Repr

/-- Go `validHeaderFieldByte`: the token characters of RFC 7230. -/
def validHeaderFieldByte (c : Char) : Bool :=
  c.isAlphanum || decide (c.toNat ∈ [33, 35, 36, 37, 38, 39, 42, 43, 45, 46, 94, 95, 96, 124, 126])

/-- The rewriting loop of Go `canonicalMIMEHeaderKey`: upper case at the start
and after a hyphen, lower case elsewhere. -/
def canonicalMIMEHeaderKey : List Char → Bool → List Char
  | [], _ => []
  | c :: cs, upper =>
    let c1 :=
      if upper ∧ 97 ≤ c.toNat ∧ c.toNat ≤ 122 then Char.ofNat (c.toNat - 32)
      else if ¬ upper ∧ 65 ≤ c.toNat ∧ c.toNat ≤ 90 then Char.ofNat (c.toNat + 32)
      else c
    c1 :: canonicalMIMEHeaderKey cs (c1 = '-')

/-- Go `textproto.CanonicalMIMEHeaderKey`: a key holding a byte that is not a
token character is returned unchanged. -/
def CanonicalMIMEHeaderKey (s : String) : String :=
  if s.data.all validHeaderFieldByte then String.mk (canonicalMIMEHeaderKey s.data true) else s

/-- Go `http.Header`, a `map[string][]string`; an absent key has no values. -/
structure Header where
  values : String → List String

/-- An empty header map. -/
def Header.empty : Header := ⟨fun _ => []⟩

/-- Go `Header.Add`. -/
def Header.Add (h : Header) (key value : String) : Header :=
  let key := CanonicalMIMEHeaderKey key
  ⟨fun k => if k = key then h.values k ++ [value] else h.values k⟩

/-- Go `Header.Get`: the first value of the key, or the empty string. -/
def Header.Get (h : Header) (key : String) : String :=
  match h.values (CanonicalMIMEHeaderKey key) with
  | [] => ""
  | v :: _ => v

/-- A response body as `ioutil.ReadAll` sees it: the data read and the read
error, if any. -/
structure Body where
  data : String
  err : Option GoError

/-- The parts of Go `http.Response` that `api.go` reads. -/
structure Response where
  StatusCode : Int
  Header : Header
  Body : Body

/-- The parts of Go `http.Request` that `api.go` sets. -/
structure Request where
  Method : String
  URL : String
  RawQuery : String
  Header : Header
  Body : Option String

/-- What one call of `client.Do` returns. -/
structure Outcome where
  resp : Option Response
  err : Option GoError

/-- The contract of Go `(*http.Client).Do` on its two results: a response comes
together with an error only when the redirect check fails, and it is then the
redirect response, whose status is 3xx. -/
def Outcome.receivable (o : Outcome) : Bool :=
  match o.resp, o.err with
  | some r, some _ => decide (300 ≤ r.StatusCode ∧ r.StatusCode < 400)
  | _, _ => true

/-- Observable effects of `makeRequest`, in program order. -/
inductive Event where
  | Do
  | Fprintf (t max_tries : Nat)
  | Sleep (seconds : Nat)
  deriving DecidableEq, Repr

/-- The process state: the global `requestsRemaining` and the effects so far. -/
structure State where
  requestsRemaining : Int
  trace : List Event

/-- Result of a Go function with results `(v, err)`, or a run-time panic
caused by dereferencing a nil `*http.Response`. -/
inductive Result (α : Type) where
  | returned (v : α) (err : Option GoError)
  | nilDereference

/-- How one pass through the body of the retry loop ends. -/
inductive Control where
  | next (resp : Option Response) (err : Option GoError)
  | exit (resp : Option Response) (err : Option GoError)
  | ret (resp : Option Response) (err : Option GoError)
  | nilDereference

/-! ## `makeRequest` -/

/-- Lines 345-356: one attempt `t` of the retry loop. -/
def makeRequest.body (Do : Nat → Outcome) (max_tries t : Nat) (st : State) : Control × State :=
  let o := Do t
  let st := { st with trace := st.trace ++ [Event.Do] }
  match o.resp with
  | none => (.nilDereference, st)
  | some r =>
    let st := { st with requestsRemaining := (Atoi (r.Header.Get "x-dnsme-requestsRemaining")).1 }
    if o.err ≠ none ∧ st.requestsRemaining > 0 then (.ret o.resp o.err, st)
    else if st.requestsRemaining = 0 then
      (.next o.resp o.err,
        { st with trace := st.trace ++ [Event.Fprintf t max_tries, Event.Sleep 30] })
    else (.exit o.resp o.err, st)

/-- Lines 358-366: the status classification after the loop. -/
def makeRequest.after (resp : Option Response) (err : Option GoError) (st : State) :
    Result (Option Response) × State :=
  match resp with
  | none => (.nilDereference, st)
  | some r =>
    if r.StatusCode = 403 then (.returned resp (some (.New "API access forbidden")), st)
    else if r.StatusCode = 404 then (.returned resp (some (.New "Not found")), st)
    else (.returned resp err, st)

/-- The loop `for t := 0; t < max_tries; t++`: the first argument is
`max_tries - t`, the number of passes still allowed. -/
def makeRequest.loop (Do : Nat → Outcome) (max_tries : Nat) :
    Nat → Nat → Option Response → Option GoError → State → Result (Option Response) × State
  | 0, _, resp, err, st => makeRequest.after resp err st
  | n + 1, t, _, _, st =>
    match makeRequest.body Do max_tries t st with
    | (.next resp err, st1) => makeRequest.loop Do max_tries n (t + 1) resp err st1
    | (.exit resp err, st1) => makeRequest.after resp err st1
    | (.ret resp err, st1) => (.returned resp err, st1)
    | (.nilDereference, st1) => (.nilDereference, st1)

/-- Go `makeRequest`; `Do t` is what the `t`-th call `client.Do(r)` returns. -/
def makeRequest (Do : Nat → Outcome) (st : State) : Result (Option Response) × State :=
  let max_tries := 10
  makeRequest.loop Do max_tries max_tries 0 none none st


/-! ## Vocabulary for statements about runs of `makeRequest` -/

/-- The remaining quota `makeRequest` reads from a response. -/
def quota (r : Response) : Int := (Atoi (r.Header.Get "x-dnsme-requestsRemaining")).1

/-- An attempt that yields a response whose quota reads as 0. -/
def blocked (o : Outcome) : Prop := ∃ r, o.resp = some r ∧ quota r = 0

/-- The effects of `k` consecutive rate-limited attempts starting at attempt `t`. -/
def blockedTrace (max_tries : Nat) : Nat → Nat → List Event
  | _, 0 => []
  | t, k + 1 => [Event.Do, Event.Fprintf t max_tries, Event.Sleep 30] ++ blockedTrace max_tries (t + 1) k

/-- Number of `client.Do` calls among some events. -/
def sends (evs : List Event) : Nat := evs.count Event.Do

/-- Whether an event is a cooldown sleep. -/
def Event.isSleep : Event → Bool
  | .Sleep _ => true
  | _ => false

/-- Number of cooldown sleeps among some events. -/
def sleeps (evs : List Event) : Nat := evs.countP Event.isSleep

/-- The error `makeRequest` returns after the loop for a final response `r`
and a final transport error `err`. -/
def statusError (r : Response) (err : Option GoError) : Option GoError :=
  if r.StatusCode = 403 then some (.New "API access forbidden")
  else if r.StatusCode = 404 then some (.New "Not found")
  else err

/-! ## Sample responses and send sequences -/

/-- A response with the given status and `x-dnsme-requestsRemaining` value. -/
def sampleResponse (status : Int) (remaining : String) : Response :=
  ⟨status, Header.empty.Add "x-dnsme-requestsRemaining" remaining, ⟨"", none⟩⟩

/-- The initial process state: `requestsRemaining` is zero, nothing has happened. -/
def State.init : State := ⟨0, []⟩

/-- Sends answered `0, 0, 5` with status 200 and no transport error. -/
def scenarioTwoBlocks (t : Nat) : Outcome :=
  if t < 2 then ⟨some (sampleResponse 200 "0"), none⟩ else ⟨some (sampleResponse 200 "5"), none⟩

/-- Every send is answered with status 403 and a remaining quota of 0. -/
def alwaysForbiddenBlocked (_ : Nat) : Outcome := ⟨some (sampleResponse 403 "0"), none⟩

/-- Every send is answered with status 200 and a remaining quota of 0. -/
def alwaysBlocked (_ : Nat) : Outcome := ⟨some (sampleResponse 200 "0"), none⟩

/-- A send whose redirect check fails: the 302 response, with quota 5, comes
together with the error of the check. -/
def redirectLimit (_ : Nat) : Outcome :=
  ⟨some (sampleResponse 302 "5"), some (.lib "stopped after 10 redirects")⟩

/-- A 403 response with quota 0, then a 200 response with quota 5. -/
def forbiddenThenOk (t : Nat) : Outcome :=
  if t < 1 then ⟨some (sampleResponse 403 "0"), none⟩ else ⟨some (sampleResponse 200 "5"), none⟩

/-- A 404 response with quota 3 and no transport error. -/
def notFoundOnce (_ : Nat) : Outcome := ⟨some (sampleResponse 404 "3"), none⟩

/-- A send that fails in transport and yields no response. -/
def connectionRefused (_ : Nat) : Outcome := ⟨none, some (.lib "dial tcp: connection refused")⟩

/-! ## Decimal numerals (the reading a header value is meant to have) -/

/-- Whether a byte is an ASCII decimal digit. -/
def isDigit (c : Nat) : Bool := decide (48 ≤ c ∧ c ≤ 57)

/-- The number denoted by decimal digits read after an accumulated value `n`. -/
def digitsValueFrom (n : Nat) (ds : List Nat) : Nat := ds.foldl (fun n c => n * 10 + (c - 48)) n

/-- The number a run of decimal digits denotes. -/
def digitsValue (ds : List Nat) : Nat := digitsValueFrom 0 ds

/-- The integer a byte string carries when it is a decimal numeral: an optional
sign followed by one or more digits. -/
def decimal? (s : List Nat) : Option Int :=
  match s with
  | [] => none
  | c :: cs =>
    if c = 45 then (if cs ≠ [] ∧ cs.all isDigit then some (-(digitsValue cs : Int)) else none)
    else if c = 43 then (if cs ≠ [] ∧ cs.all isDigit then some (digitsValue cs : Int) else none)
    else if (c :: cs).all isDigit then some (digitsValue (c :: cs) : Int) else none

/-- Smallest Go `int` (64 bits). -/
def minInt : Int := -(2 ^ 63)

/-- Largest Go `int` (64 bits). -/
def maxInt : Int := 2 ^ 63 - 1

/-- Every send is answered with status 200 and the header value 2^63. -/
def overRange (_ : Nat) : Outcome := ⟨some (sampleResponse 200 "9223372036854775808"), none⟩

/-! ## `crypto/sha1`, `crypto/hmac` and `fmt` (Go standard library), as used by `addDnsmeHeaders` -/

/-- Go `bits.RotateLeft32` on a `uint32`. -/
def RotateLeft32 (x k : Nat) : Nat := ((x <<< k) % 2 ^ 32) ||| (x >>> (32 - k))

/-- The five-word chaining value of SHA-1. -/
structure sha1.Chain where
  h0 : Nat
  h1 : Nat
  h2 : Nat
  h3 : Nat
  h4 : Nat

/-- The initial chaining value of SHA-1. -/
def sha1.init : sha1.Chain := ⟨0x67452301, 0xEFCDAB89, 0x98BADCFE, 0x10325476, 0xC3D2E1F0⟩

/-- The big-endian 32-bit words of a run of bytes. -/
def sha1.words : List Nat → List Nat
  | b0 :: b1 :: b2 :: b3 :: rest =>
    (b0 * 2 ^ 24 + b1 * 2 ^ 16 + b2 * 2 ^ 8 + b3) :: sha1.words rest
  | _ => []

/-- The message schedule: `k` more words after the words `w`. -/
def sha1.schedule : Nat → List Nat → List Nat
  | 0, w => w
  | k + 1, w =>
    let i := w.length
    let tmp := w.getD (i - 3) 0 ^^^ w.getD (i - 8) 0 ^^^ w.getD (i - 14) 0 ^^^ w.getD (i - 16) 0
    sha1.schedule k (w ++ [RotateLeft32 tmp 1])

/-- One of the 80 rounds of the SHA-1 compression function. -/
def sha1.round (i wi : Nat) (s : sha1.Chain) : sha1.Chain :=
  let f :=
    if i < 20 then (s.h1 &&& s.h2) ||| ((s.h1 ^^^ 0xFFFFFFFF) &&& s.h3)
    else if i < 40 then s.h1 ^^^ s.h2 ^^^ s.h3
    else if i < 60 then ((s.h1 ||| s.h2) &&& s.h3) ||| (s.h1 &&& s.h2)
    else s.h1 ^^^ s.h2 ^^^ s.h3
  let k :=
    if i < 20 then 0x5A827999
    else if i < 40 then 0x6ED9EBA1
    else if i < 60 then 0x8F1BBCDC
    else 0xCA62C1D6
  let t := (RotateLeft32 s.h0 5 + f + s.h4 + wi + k) % 2 ^ 32
  ⟨t, s.h0, RotateLeft32 s.h1 30, s.h2, s.h3⟩

/-- The rounds `i, i + 1, ...` over the remaining schedule words. -/
def sha1.rounds : Nat → List Nat → sha1.Chain → sha1.Chain
  | _, [], s => s
  | i, wi :: ws, s => sha1.rounds (i + 1) ws (sha1.round i wi s)

/-- The SHA-1 compression of one 64-byte block into the chaining value. -/
def sha1.block (h : sha1.Chain) (p : List Nat) : sha1.Chain :=
  let w := sha1.schedule 64 (sha1.words p)
  let s := sha1.rounds 0 w h
  ⟨(h.h0 + s.h0) % 2 ^ 32, (h.h1 + s.h1) % 2 ^ 32, (h.h2 + s.h2) % 2 ^ 32,
    (h.h3 + s.h3) % 2 ^ 32, (h.h4 + s.h4) % 2 ^ 32⟩

/-- Compression of `n` consecutive 64-byte blocks. -/
def sha1.blocks : Nat → sha1.Chain → List Nat → sha1.Chain
  | 0, h, _ => h
  | n + 1, h, p => sha1.blocks n (sha1.block h (p.take 64)) (p.drop 64)

/-- The padding of Go `checkSum`: a 0x80 byte, zero bytes up to 56 modulo 64,
then the bit length as a big-endian `uint64`. -/
def sha1.padding (len : Nat) : List Nat :=
  let zeros := if len % 64 < 56 then 56 - len % 64 - 1 else 64 + 56 - len % 64 - 1
  let bits := (len * 8) % 2 ^ 64
  [0x80] ++ List.replicate zeros 0 ++
    [bits / 2 ^ 56 % 256, bits / 2 ^ 48 % 256, bits / 2 ^ 40 % 256, bits / 2 ^ 32 % 256,
     bits / 2 ^ 24 % 256, bits / 2 ^ 16 % 256, bits / 2 ^ 8 % 256, bits % 256]

/-- The four big-endian bytes of a `uint32`. -/
def sha1.putUint32 (w : Nat) : List Nat :=
  [w / 2 ^ 24 % 256, w / 2 ^ 16 % 256, w / 2 ^ 8 % 256, w % 256]

/-- The SHA-1 digest (20 bytes) of a byte string. -/
def sha1.checkSum (data : List Nat) : List Nat :=
  let p := data ++ sha1.padding data.length
  let h := sha1.blocks (p.length / 64) sha1.init p
  sha1.putUint32 h.h0 ++ sha1.putUint32 h.h1 ++ sha1.putUint32 h.h2 ++ sha1.putUint32 h.h3 ++
    sha1.putUint32 h.h4

/-- A Go `hash.Hash` seen through its interface: the digest function of the
hash, its block size, and the bytes written since the last `Reset`. -/
structure Hash where
  checkSum : List Nat → List Nat
  blockSize : Nat
  written : List Nat

/-- Go `hash.Hash.Write`. -/
def Hash.Write (d : Hash) (p : List Nat) : Hash := { d with written := d.written ++ p }

/-- Go `hash.Hash.Sum`: appends the digest of the bytes written to `b`. -/
def Hash.Sum (d : Hash) (b : List Nat) : List Nat := b ++ d.checkSum d.written

/-- Go `hash.Hash.Reset`. -/
def Hash.Reset (d : Hash) : Hash := { d with written := [] }

/-- Go `hash.Hash.BlockSize`. -/
def Hash.BlockSize (d : Hash) : Nat := d.blockSize

/-- Go `sha1.New`: a fresh SHA-1 hash, block size 64. -/
def sha1.New : Hash := ⟨sha1.checkSum, 64, []⟩

/-- Go built-in `copy(dst, src)`: the new contents of `dst`. -/
def copy (dst src : List Nat) : List Nat := src.take dst.length ++ dst.drop src.length

/-- Go `hmac` object of `crypto/hmac`. -/
structure hmac where
  opad : List Nat
  ipad : List Nat
  outer : Hash
  inner : Hash

/-- Go `hmac.New(h, key)`; `h` is the fresh hash that the constructor argument
returns at each call. -/
def hmac.New (h : Hash) (key : List Nat) : hmac :=
  let outer := h
  let inner := h
  let blocksize := inner.BlockSize
  let ipad := List.replicate blocksize 0
  let opad := List.replicate blocksize 0
  let (outer, key) :=
    if key.length > blocksize then
      let outer := outer.Write key
      (outer, outer.Sum [])
    else (outer, key)
  let ipad := (copy ipad key).map (fun b => b ^^^ 0x36)
  let opad := (copy opad key).map (fun b => b ^^^ 0x5c)
  let inner := inner.Write ipad
  ⟨opad, ipad, outer, inner⟩

/-- Go `(*hmac).Write`. -/
def hmac.Write (h : hmac) (p : List Nat) : hmac := { h with inner := h.inner.Write p }

/-- Go `(*hmac).Sum`. -/
def hmac.Sum (h : hmac) (b : List Nat) : List Nat :=
  let origLen := b.length
  let b := h.inner.Sum b
  let outer := h.outer.Reset
  let outer := outer.Write h.opad
  let outer := outer.Write (b.drop origLen)
  outer.Sum (b.take origLen)

/-- One lowercase hexadecimal digit. -/
def hexDigit (n : Nat) : Char := if n < 10 then Char.ofNat (48 + n) else Char.ofNat (87 + n)

/-- Go `fmt.Sprintf("%x", b)` for a byte slice `b`: two lowercase hexadecimal
digits per byte. -/
def Sprintf_x (b : List Nat) : String :=
  String.mk (b.flatMap (fun x => [hexDigit (x / 16 % 16), hexDigit (x % 16)]))

/-- HMAC as RFC 2104 defines it for a hash `H` with block length `B`:
`H((K ⊕ opad) ‖ H((K ⊕ ipad) ‖ text))`, where `K` is the key, hashed first
when longer than a block, then padded with zero bytes to the block length. -/
def HMAC (H : List Nat → List Nat) (B : Nat) (key text : List Nat) : List Nat :=
  let k := if key.length > B then H key else key
  let k := k ++ List.replicate (B - k.length) 0
  let ipad := List.zipWith (fun a b => a ^^^ b) k (List.replicate B 0x36)
  let opad := List.zipWith (fun a b => a ^^^ b) k (List.replicate B 0x5c)
  H (opad ++ H (ipad ++ text))

/-- HMAC-SHA1: RFC 2104 with SHA-1, whose block length is 64 bytes. -/
def HMAC_SHA1 (key text : List Nat) : List Nat := HMAC sha1.checkSum 64 key text

/-! ## API values and the surroundings of the API functions -/

/-- Go `apiDomain`. -/
structure apiDomain where
  Name : String
  NameServers : List String
  VanityNameServers : List String
  GtdEnabled : Bool
  Error : List String
  deriving DecidableEq, Repr

/-- Go `apiRecord`; the field `Type` is written `Type_`. -/
structure apiRecord where
  Name : String
  ID : Int
  Type_ : String
  Data : String
  GtdLocation : String
  TTL : Int
  Password : String
  Error : List String
  deriving DecidableEq, Repr

/-- The zero value of `apiDomain`. -/
def apiDomain.zero : apiDomain := ⟨"", [], [], false, []⟩

/-- The zero value of `apiRecord`. -/
def apiRecord.zero : apiRecord := ⟨"", 0, "", "", "", 0, "", []⟩

/-- The second argument of `getDomainRecords`, an `interface{}`: a
`*url.Values` or anything else. -/
inductive Vals where
  | urlValues (v : List (String × List String))
  | other

/-- What `api.go` takes from outside: the package variables `api_url`,
`api_key` and `secret_key` (declared elsewhere in the package), the clock,
and the library calls whose results depend on the network or on the `json`,
`url` and `http` packages. -/
structure Env where
  api_url : String
  api_key : String
  secret_key : String
  /-- The value of `time.Now().UTC().Format(time.RFC1123)` when headers are added. -/
  requestDate : String
  /-- Go `http.NewRequest(method, url, body)`. -/
  NewRequest : String → String → Option String → Except GoError Request
  /-- What the `t`-th call `client.Do(r)` of a run of `makeRequest` returns. -/
  Do : Request → Nat → Outcome
  /-- Go `json.Marshal` of an `apiDomain`. -/
  Marshal_apiDomain : apiDomain → String × Option GoError
  /-- Go `json.Marshal` of an `apiRecord`. -/
  Marshal_apiRecord : apiRecord → String × Option GoError
  /-- Go `json.Unmarshal` of a body into a zero `apiDomain`. -/
  Unmarshal_apiDomain : String → apiDomain × Option GoError
  /-- Go `json.Unmarshal` of a body into a zero `apiRecord`. -/
  Unmarshal_apiRecord : String → apiRecord × Option GoError
  /-- Go `json.Unmarshal` of a body into a nil `[]apiRecord`. -/
  Unmarshal_apiRecords : String → List apiRecord × Option GoError
  /-- Go `(url.Values).Encode`. -/
  Encode : List (String × List String) → String

/-- Go `ioutil.ReadAll(resp.Body)`. -/
def ReadAll (b : Body) : String × Option GoError := (b.data, b.err)

/-- Go `strings.Join`. -/
def Join : List String → String → String
  | [], _ => ""
  | [a], _ => a
  | a :: b :: rest, sep => a ++ sep ++ Join (b :: rest) sep

/-- Go `strconv.Itoa`. -/
def Itoa (i : Int) : String := toString i

/-! ## The API functions -/

/-- Go `addDnsmeHeaders`. -/
def addDnsmeHeaders (env : Env) (r : Request) : Request :=
  let r := { r with Header := r.Header.Add "x-dnsme-apiKey" env.api_key }
  let requestDate := env.requestDate
  let r := { r with Header := r.Header.Add "x-dnsme-requestDate" requestDate }
  let h := hmac.New sha1.New (bytes env.secret_key)
  let h := h.Write (bytes requestDate)
  let r := { r with Header := r.Header.Add "x-dnsme-hmac" (Sprintf_x (h.Sum [])) }
  let r := { r with Header := r.Header.Add "Accept" "application/json" }
  r

/-- Go `getDomainInfo`. -/
def getDomainInfo (env : Env) (domain : String) (st : State) : Result apiDomain × State :=
  match env.NewRequest "GET" (env.api_url ++ "/domains/" ++ domain) none with
  | .error err => (.returned apiDomain.zero (some err), st)
  | .ok req =>
    let req := addDnsmeHeaders env req
    match makeRequest (env.Do req) st with
    | (.nilDereference, st) => (.nilDereference, st)
    | (.returned _ (some err), st) => (.returned apiDomain.zero (some err), st)
    | (.returned none none, st) => (.nilDereference, st)
    | (.returned (some resp) none, st) =>
      match ReadAll resp.Body with
      | (_, some err) => (.returned apiDomain.zero (some err), st)
      | (body, none) =>
        match env.Unmarshal_apiDomain body with
        | (info, some err) => (.returned info (some err), st)
        | (info, none) =>
          if info.Error.length > 0 then
            let errStr := Join info.Error " "
            (.returned info (some (.New errStr)), st)
          else (.returned info none, st)

/-- Go `addDomain`. -/
def addDomain (env : Env) (domain : apiDomain) (st : State) : Result apiDomain × State :=
  match env.Marshal_apiDomain domain with
  | (_, some err) => (.returned apiDomain.zero (some err), st)
  | (jsonBody, none) =>
    match env.NewRequest "PUT" (env.api_url ++ "/domains/" ++ domain.Name) (some jsonBody) with
    | .error err => (.returned apiDomain.zero (some err), st)
    | .ok req =>
      let req := addDnsmeHeaders env req
      let req := { req with Header := req.Header.Add "content-type" "application/json" }
      match makeRequest (env.Do req) st with
      | (.nilDereference, st) => (.nilDereference, st)
      | (.returned _ (some err), st) => (.returned apiDomain.zero (some err), st)
      | (.returned none none, st) => (.nilDereference, st)
      | (.returned (some resp) none, st) =>
        match ReadAll resp.Body with
        | (_, some err) => (.returned apiDomain.zero (some err), st)
        | (body, none) =>
          match env.Unmarshal_apiDomain body with
          | (domainResponse, some err) => (.returned domainResponse (some err), st)
          | (domainResponse, none) =>
            if domainResponse.Error.length > 0 then
              let errStr := Join domainResponse.Error " "
              (.returned domainResponse (some (.New errStr)), st)
            else (.returned domainResponse none, st)

/-- Go `getDomainRecord`. -/
def getDomainRecord (env : Env) (id domain : String) (st : State) : Result apiRecord × State :=
  match env.NewRequest "GET" (env.api_url ++ "/domains/" ++ domain ++ "/records/" ++ id) none with
  | .error err => (.returned apiRecord.zero (some err), st)
  | .ok req =>
    let req := addDnsmeHeaders env req
    match makeRequest (env.Do req) st with
    | (.nilDereference, st) => (.nilDereference, st)
    | (.returned _ (some err), st) => (.returned apiRecord.zero (some err), st)
    | (.returned none none, st) => (.nilDereference, st)
    | (.returned (some resp) none, st) =>
      match ReadAll resp.Body with
      | (_, some err) => (.returned apiRecord.zero (some err), st)
      | (body, none) =>
        match env.Unmarshal_apiRecord body with
        | (record, some err) => (.returned record (some err), st)
        | (record, none) =>
          if record.Error.length > 0 then
            let errStr := Join record.Error " "
            (.returned record (some (.New errStr)), st)
          else if record.Type_ = "CNAME" ∧ record.Data = "" then
            (.returned { record with Data := domain ++ "." } none, st)
          else (.returned record none, st)

/-- The loop `for i, rec := range records` of `getDomainRecords`: the first
argument counts the elements still to visit, `i` is the index. -/
def getDomainRecords.loop (domain : String) : Nat → Nat → List apiRecord → List apiRecord
  | 0, _, records => records
  | n + 1, i, records =>
    match records.get? i with
    | none => records
    | some rec =>
      if rec.Type_ = "CNAME" ∧ rec.Data = "" then
        getDomainRecords.loop domain n (i + 1) (records.set i { rec with Data := domain ++ "." })
      else getDomainRecords.loop domain n (i + 1) records

/-- Go `getDomainRecords`. -/
def getDomainRecords (env : Env) (domain : String) (vals : Vals) (st : State) :
    Result (List apiRecord) × State :=
  match env.NewRequest "GET" (env.api_url ++ "/domains/" ++ domain ++ "/records") none with
  | .error err => (.returned [] (some err), st)
  | .ok req =>
    let req := addDnsmeHeaders env req
    let req :=
      match vals with
      | .urlValues i => { req with RawQuery := env.Encode i }
      | .other => req
    match makeRequest (env.Do req) st with
    | (.nilDereference, st) => (.nilDereference, st)
    | (.returned _ (some err), st) => (.returned [] (some err), st)
    | (.returned none none, st) => (.nilDereference, st)
    | (.returned (some resp) none, st) =>
      match ReadAll resp.Body with
      | (_, some err) => (.returned [] (some err), st)
      | (body, none) =>
        match env.Unmarshal_apiRecords body with
        | (records, some err) => (.returned records (some err), st)
        | (records, none) =>
          (.returned (getDomainRecords.loop domain records.length 0 records) none, st)

/-- Go `addDomainRecord`. -/
def addDomainRecord (env : Env) (domain : String) (r : apiRecord) (st : State) :
    Result apiRecord × State :=
  match env.Marshal_apiRecord r with
  | (_, some err) => (.returned apiRecord.zero (some err), st)
  | (jsonBody, none) =>
    let (method, url, isUpdate) :=
      if r.ID = 0 then ("POST", env.api_url ++ "/domains/" ++ domain ++ "/records/", false)
      else ("PUT", env.api_url ++ "/domains/" ++ domain ++ "/records/" ++ Itoa r.ID, true)
    match env.NewRequest method url (some jsonBody) with
    | .error err => (.returned apiRecord.zero (some err), st)
    | .ok req =>
      let req := addDnsmeHeaders env req
      let req := { req with Header := req.Header.Add "content-type" "application/json" }
      match makeRequest (env.Do req) st with
      | (.nilDereference, st) => (.nilDereference, st)
      | (.returned _ (some err), st) => (.returned apiRecord.zero (some err), st)
      | (.returned resp none, st) =>
        if isUpdate then (.returned apiRecord.zero none, st)
        else
          match resp with
          | none => (.nilDereference, st)
          | some resp =>
            match ReadAll resp.Body with
            | (_, some err) => (.returned apiRecord.zero (some err), st)
            | (body, none) =>
              match env.Unmarshal_apiRecord body with
              | (record, some err) => (.returned record (some err), st)
              | (record, none) =>
                if record.Error.length > 0 then
                  let errStr := Join record.Error " "
                  (.returned record (some (.New errStr)), st)
                else (.returned record none, st)

/-! ## Vocabulary for statements about the API functions -/

/-- The CNAME workaround on one record: an empty `Data` of a CNAME record
becomes the domain name followed by a dot; nothing else changes. -/
def withCNAMEData (domain : String) (rec : apiRecord) : apiRecord :=
  if rec.Type_ = "CNAME" ∧ rec.Data = "" then { rec with Data := domain ++ "." } else rec

/-- The request `getDomainRecords` sends, given the request `http.NewRequest` made. -/
def getDomainRecords.request (env : Env) (req : Request) (vals : Vals) : Request :=
  match vals with
  | .urlValues i => { addDnsmeHeaders env req with RawQuery := env.Encode i }
  | .other => addDnsmeHeaders env req

/-- The request `addDomain` and `addDomainRecord` send, given the request
`http.NewRequest` made. -/
def jsonRequest (env : Env) (req : Request) : Request :=
  { addDnsmeHeaders env req with
    Header := (addDnsmeHeaders env req).Header.Add "content-type" "application/json" }

/-- A response with status 200, quota 5 and a readable body. -/
def okResponse : Response :=
  ⟨200, Header.empty.Add "x-dnsme-requestsRemaining" "5", ⟨"body", none⟩⟩

/-- Surroundings in which every send succeeds at once and every body decodes
to an envelope that carries provider errors (for a single record or domain),
or to two records without errors (for a record list). -/
def sampleEnv : Env where
  api_url := "http://api.dnsmadeeasy.com/V1.2"
  api_key := "key"
  secret_key := "secret"
  requestDate := "Mon, 02 Jan 2006 15:04:05 UTC"
  NewRequest := fun method url body => .ok ⟨method, url, "", Header.empty, body⟩
  Do := fun _ _ => ⟨some okResponse, none⟩
  Marshal_apiDomain := fun _ => ("json", none)
  Marshal_apiRecord := fun _ => ("json", none)
  Unmarshal_apiDomain := fun _ => (⟨"example.com", [], [], false, ["Domain is locked", "retry"]⟩, none)
  Unmarshal_apiRecord := fun _ => (⟨"www", 0, "CNAME", "", "", 1800, "", ["Record is locked"]⟩, none)
  Unmarshal_apiRecords := fun _ =>
    ([⟨"www", 1, "CNAME", "", "", 1800, "", []⟩, ⟨"", 2, "A", "192.0.2.1", "", 1800, "", []⟩], none)
  Encode := fun _ => ""

/-! ## Lemmas on the retry loop -/

theorem sends_blockedTrace (m t k : Nat) : sends (blockedTrace m t k) = k := by
  induction k generalizing t with
  | zero => rfl
  | succ k ih =>
    have h := ih (t + 1)
    simp only [sends] at h ⊢
    simp [blockedTrace, h]

theorem sleeps_blockedTrace (m t k : Nat) : sleeps (blockedTrace m t k) = k := by
  induction k generalizing t with
  | zero => rfl
  | succ k ih =>
    have h := ih (t + 1)
    simp only [sleeps] at h ⊢
    simp [blockedTrace, h, Event.isSleep]

theorem blockedTrace_succ_right (m t k : Nat) :
    blockedTrace m t (k + 1) =
      blockedTrace m t k ++ [Event.Do, Event.Fprintf (t + k) m, Event.Sleep 30] := by
  induction k generalizing t with
  | zero => simp [blockedTrace]
  | succ k ih =>
    rw [blockedTrace, ih (t + 1)]
    simp [blockedTrace, Nat.add_assoc, Nat.add_comm 1 k]

theorem after_some (r : Response) (err : Option GoError) (st : State) :
    makeRequest.after (some r) err st = (.returned (some r) (statusError r err), st) := by
  simp only [makeRequest.after, statusError]
  split_ifs <;> rfl

/-- A rate-limited attempt: the loop sleeps and goes on. -/
theorem body_blocked (Do : Nat → Outcome) (m t : Nat) (st : State) (h : blocked (Do t)) :
    makeRequest.body Do m t st =
      (.next (Do t).resp (Do t).err,
        ⟨0, st.trace ++ [Event.Do, Event.Fprintf t m, Event.Sleep 30]⟩) := by
  obtain ⟨r, hr, hq⟩ := h
  unfold quota at hq
  simp [makeRequest.body, hr, hq]

/-- A response with a non-zero quota and no transport error with quota above 0:
the loop is left by `break`. -/
theorem body_exit (Do : Nat → Outcome) (m t : Nat) (st : State) (r : Response)
    (hr : (Do t).resp = some r) (hq : quota r ≠ 0)
    (he : ¬ ((Do t).err ≠ none ∧ quota r > 0)) :
    makeRequest.body Do m t st =
      (.exit (some r) (Do t).err, ⟨quota r, st.trace ++ [Event.Do]⟩) := by
  unfold quota at hq he
  simp only [makeRequest.body, hr]
  rw [if_neg he, if_neg hq]
  rfl

/-- A transport error with a quota above 0: `makeRequest` returns at once. -/
theorem body_ret (Do : Nat → Outcome) (m t : Nat) (st : State) (r : Response)
    (hr : (Do t).resp = some r) (he : (Do t).err ≠ none) (hq : quota r > 0) :
    makeRequest.body Do m t st =
      (.ret (some r) (Do t).err, ⟨quota r, st.trace ++ [Event.Do]⟩) := by
  unfold quota at hq
  simp only [makeRequest.body, hr]
  rw [if_pos ⟨he, hq⟩]
  rfl

/-- A send that yields no response: the header read dereferences nil. -/
theorem body_nil (Do : Nat → Outcome) (m t : Nat) (st : State) (hr : (Do t).resp = none) :
    makeRequest.body Do m t st =
      (.nilDereference, ⟨st.requestsRemaining, st.trace ++ [Event.Do]⟩) := by
  simp [makeRequest.body, hr]

/-- After `k` rate-limited attempts the loop stands at attempt `t + k`. -/
theorem loop_blocked (Do : Nat → Outcome) (m n : Nat) :
    ∀ (k t : Nat) (resp : Option Response) (err : Option GoError) (st : State),
      (∀ i, i < k → blocked (Do (t + i))) →
      makeRequest.loop Do m (n + k) t resp err st =
        makeRequest.loop Do m n (t + k)
          (if k = 0 then resp else (Do (t + k - 1)).resp)
          (if k = 0 then err else (Do (t + k - 1)).err)
          ⟨if k = 0 then st.requestsRemaining else 0, st.trace ++ blockedTrace m t k⟩ := by
  intro k
  induction k with
  | zero =>
    intro t resp err st _
    simp [blockedTrace]
  | succ k ih =>
    intro t resp err st h
    have h0 : blocked (Do t) := by simpa using h 0 (Nat.succ_pos k)
    have hk : ∀ i, i < k → blocked (Do (t + 1 + i)) := by
      intro i hi
      have := h (i + 1) (Nat.succ_lt_succ hi)
      rwa [show t + (i + 1) = t + 1 + i by omega] at this
    rw [show n + (k + 1) = (n + k) + 1 by omega, makeRequest.loop, body_blocked Do m t st h0]
    simp only
    rw [ih (t + 1) _ _ _ hk, show t + 1 + k = t + (k + 1) by omega]
    rcases Nat.eq_zero_or_pos k with hk0 | hkpos
    · subst hk0
      simp [blockedTrace]
    · have hne : k ≠ 0 := by omega
      simp [blockedTrace, hne]

/-- The run up to attempt `k`, when the attempts before it were rate-limited. -/
theorem makeRequest_after_blocked (Do : Nat → Outcome) (st : State) (k n : Nat)
    (hk : n + k = 10) (hb : ∀ i, i < k → blocked (Do i)) :
    makeRequest Do st =
      makeRequest.loop Do 10 n k
        (if k = 0 then none else (Do (k - 1)).resp)
        (if k = 0 then none else (Do (k - 1)).err)
        ⟨if k = 0 then st.requestsRemaining else 0, st.trace ++ blockedTrace 10 0 k⟩ := by
  have h := loop_blocked Do 10 n k 0 none none st (by simpa using hb)
  simp only [Nat.zero_add] at h
  rw [hk] at h
  exact h

/-- Every pass of the loop sends once, so `n` passes send at most `n` times. -/
theorem loop_sends_le (Do : Nat → Outcome) (m : Nat) :
    ∀ (n t : Nat) (resp : Option Response) (err : Option GoError) (st : State),
      ∃ evs, (makeRequest.loop Do m n t resp err st).2.trace = st.trace ++ evs ∧
        sends evs ≤ n := by
  intro n
  induction n with
  | zero =>
    intro t resp err st
    refine ⟨[], ?_, by simp [sends]⟩
    cases resp <;> simp [makeRequest.loop, makeRequest.after]
    split_ifs <;> rfl
  | succ n ih =>
    intro t resp err st
    rw [makeRequest.loop]
    cases hresp : (Do t).resp with
    | none =>
      rw [body_nil Do m t st hresp]
      exact ⟨[Event.Do], rfl, by simp [sends]⟩
    | some r =>
      by_cases hq : quota r = 0
      · rw [body_blocked Do m t st ⟨r, hresp, hq⟩]
        obtain ⟨evs, h1, h2⟩ := ih (t + 1) (Do t).resp (Do t).err
          ⟨0, st.trace ++ [Event.Do, Event.Fprintf t m, Event.Sleep 30]⟩
        refine ⟨[Event.Do, Event.Fprintf t m, Event.Sleep 30] ++ evs, ?_, ?_⟩
        · simp only [h1, List.append_assoc]
        · simp only [sends] at h2 ⊢
          simp
          omega
      · by_cases he : (Do t).err ≠ none ∧ quota r > 0
        · rw [body_ret Do m t st r hresp he.1 he.2]
          exact ⟨[Event.Do], rfl, by simp [sends]⟩
        · rw [body_exit Do m t st r hresp hq he]
          simp only [after_some]
          exact ⟨[Event.Do], rfl, by simp [sends]⟩

/-- Ten rate-limited attempts: the loop runs out and the last response is classified. -/
theorem makeRequest_exhausted (Do : Nat → Outcome) (st : State)
    (hb : ∀ i, i < 10 → blocked (Do i)) :
    ∃ r, (Do 9).resp = some r ∧
      makeRequest Do st =
        (.returned (some r) (statusError r (Do 9).err), ⟨0, st.trace ++ blockedTrace 10 0 10⟩) := by
  obtain ⟨r, hr, _⟩ := hb 9 (by omega)
  refine ⟨r, hr, ?_⟩
  rw [makeRequest_after_blocked Do st 10 0 rfl hb]
  simp [makeRequest.loop, hr, after_some]

/-- Attempt `k` ends the loop by `break`. -/
theorem makeRequest_exit (Do : Nat → Outcome) (st : State) (k : Nat) (r : Response)
    (hk : k < 10) (hb : ∀ i, i < k → blocked (Do i))
    (hr : (Do k).resp = some r) (hq : quota r ≠ 0)
    (he : ¬ ((Do k).err ≠ none ∧ quota r > 0)) :
    makeRequest Do st =
      (.returned (some r) (statusError r (Do k).err),
        ⟨quota r, st.trace ++ (blockedTrace 10 0 k ++ [Event.Do])⟩) := by
  rw [makeRequest_after_blocked Do st k (9 - k + 1) (by omega) hb, makeRequest.loop,
    body_exit Do 10 k _ r hr hq he]
  simp [after_some]

/-- Attempt `k` ends the run by the early `return`. -/
theorem makeRequest_ret (Do : Nat → Outcome) (st : State) (k : Nat) (r : Response)
    (hk : k < 10) (hb : ∀ i, i < k → blocked (Do i))
    (hr : (Do k).resp = some r) (he : (Do k).err ≠ none) (hq : quota r > 0) :
    makeRequest Do st =
      (.returned (some r) (Do k).err,
        ⟨quota r, st.trace ++ (blockedTrace 10 0 k ++ [Event.Do])⟩) := by
  rw [makeRequest_after_blocked Do st k (9 - k + 1) (by omega) hb, makeRequest.loop,
    body_ret Do 10 k _ r hr he hq]
  simp

/-- Attempt `k` yields no response: the run stops in a nil dereference. -/
theorem makeRequest_nil (Do : Nat → Outcome) (st : State) (k : Nat)
    (hk : k < 10) (hb : ∀ i, i < k → blocked (Do i)) (hr : (Do k).resp = none) :
    (makeRequest Do st).1 = .nilDereference := by
  rw [makeRequest_after_blocked Do st k (9 - k + 1) (by omega) hb, makeRequest.loop,
    body_nil Do 10 k _ hr]

theorem quota_sampleResponse (status : Int) (remaining : String) :
    quota (sampleResponse status remaining) = (Atoi remaining).1 := by
  simp [quota, sampleResponse, Header.Get, Header.Add, Header.empty]

theorem quota_sample_zero (status : Int) : quota (sampleResponse status "0") = 0 := by
  rw [quota_sampleResponse]; decide

theorem quota_sample_five (status : Int) : quota (sampleResponse status "5") = 5 := by
  rw [quota_sampleResponse]; decide

theorem quota_sample_three (status : Int) : quota (sampleResponse status "3") = 3 := by
  rw [quota_sampleResponse]; decide

/-! ## Claims on `makeRequest` -/

/-- C1 (amended): for every sequence of attempt outcomes `makeRequest` sends at
most 10 times; when each of the first ten attempts reports a remaining quota of
0 it sends exactly 10 times, leaves the loop and returns the response of the
10th attempt, with the error of the 10th attempt unless the status of that
response is 403 or 404, where the error is the fixed status error. -/
theorem C1_makeRequest_send_bound (Do : Nat → Outcome) (st : State) :
    (∃ evs, (makeRequest Do st).2.trace = st.trace ++ evs ∧ sends evs ≤ 10) ∧
    ((∀ i, i < 10 → blocked (Do i)) →
      ∃ r, (Do 9).resp = some r ∧
        (makeRequest Do st).2.trace = st.trace ++ blockedTrace 10 0 10 ∧
        sends (blockedTrace 10 0 10) = 10 ∧
        (r.StatusCode = 403 →
          (makeRequest Do st).1 = .returned (some r) (some (.New "API access forbidden"))) ∧
        (r.StatusCode = 404 →
          (makeRequest Do st).1 = .returned (some r) (some (.New "Not found"))) ∧
        (r.StatusCode ≠ 403 → r.StatusCode ≠ 404 →
          (makeRequest Do st).1 = .returned (Do 9).resp (Do 9).err)) := by
  refine ⟨loop_sends_le Do 10 10 0 none none st, ?_⟩
  intro hb
  obtain ⟨r, hr, h⟩ := makeRequest_exhausted Do st hb
  refine ⟨r, hr, by rw [h], sends_blockedTrace 10 0 10, ?_, ?_, ?_⟩
  · intro h403
    rw [h]; simp [statusError, h403]
  · intro h404
    have h403 : r.StatusCode ≠ 403 := by omega
    rw [h]; simp [statusError, h403, h404]
  · intro h403 h404
    rw [h, hr]; simp [statusError, h403, h404]

/-- Witness of C1: ten responses with status 200 and quota 0. -/
theorem C1_makeRequest_send_bound_witness :
    (∀ i, i < 10 → blocked (alwaysBlocked i)) ∧
    ∃ r, (alwaysBlocked 9).resp = some r ∧
      (makeRequest alwaysBlocked State.init).2.trace = State.init.trace ++ blockedTrace 10 0 10 ∧
      sends (blockedTrace 10 0 10) = 10 ∧
      (r.StatusCode = 403 →
        (makeRequest alwaysBlocked State.init).1 =
          .returned (some r) (some (.New "API access forbidden"))) ∧
      (r.StatusCode = 404 →
        (makeRequest alwaysBlocked State.init).1 = .returned (some r) (some (.New "Not found"))) ∧
      (r.StatusCode ≠ 403 → r.StatusCode ≠ 404 →
        (makeRequest alwaysBlocked State.init).1 =
          .returned (alwaysBlocked 9).resp (alwaysBlocked 9).err) :=
  ⟨fun _ _ => ⟨_, rfl, quota_sample_zero 200⟩,
    (C1_makeRequest_send_bound alwaysBlocked State.init).2
      (fun _ _ => ⟨_, rfl, quota_sample_zero 200⟩)⟩

/-- Counterexample to C1 as stated: ten responses with status 403 and quota 0
have no transport error on the 10th attempt, yet `makeRequest` returns the
error "API access forbidden", not the (nil) error of the 10th attempt. -/
theorem C1_counterexample :
    (∀ i, i < 10 → blocked (alwaysForbiddenBlocked i)) ∧
    (alwaysForbiddenBlocked 9).err = none ∧
    (makeRequest alwaysForbiddenBlocked State.init).1 =
      .returned (alwaysForbiddenBlocked 9).resp (some (.New "API access forbidden")) ∧
    (makeRequest alwaysForbiddenBlocked State.init).1 ≠
      .returned (alwaysForbiddenBlocked 9).resp (alwaysForbiddenBlocked 9).err := by
  have hb : ∀ i, i < 10 → blocked (alwaysForbiddenBlocked i) :=
    fun _ _ => ⟨_, rfl, quota_sample_zero 403⟩
  obtain ⟨r, hr, h⟩ := makeRequest_exhausted alwaysForbiddenBlocked State.init hb
  have hr2 : r = sampleResponse 403 "0" := by
    simp only [alwaysForbiddenBlocked, Option.some.injEq] at hr
    exact hr.symm
  subst hr2
  have hres : (makeRequest alwaysForbiddenBlocked State.init).1 =
      .returned (some (sampleResponse 403 "0")) (some (.New "API access forbidden")) := by
    rw [h]; simp [statusError, sampleResponse]
  refine ⟨hb, rfl, hres, ?_⟩
  rw [hres]
  simp [alwaysForbiddenBlocked]

/-- C2: when the first `k < 10` attempts each report a remaining quota of 0 and
attempt `k + 1` reports a quota above 0 with no transport error, `makeRequest`
performs exactly `k + 1` sends and `k` cooldown sleeps, nothing after the last
send, and returns the response of attempt `k + 1` with a nil error when its
status is neither 403 nor 404. -/
theorem C2_makeRequest_succeeds_after_cooldowns (k : Nat) (Do : Nat → Outcome) (st : State)
    (r : Response) (hk : k < 10) (hb : ∀ i, i < k → blocked (Do i))
    (hr : (Do k).resp = some r) (he : (Do k).err = none) (hq : quota r > 0) :
    (makeRequest Do st).2.trace = st.trace ++ (blockedTrace 10 0 k ++ [Event.Do]) ∧
    sends (blockedTrace 10 0 k ++ [Event.Do]) = k + 1 ∧
    sleeps (blockedTrace 10 0 k ++ [Event.Do]) = k ∧
    (r.StatusCode ≠ 403 → r.StatusCode ≠ 404 →
      (makeRequest Do st).1 = .returned (some r) none) := by
  have h := makeRequest_exit Do st k r hk hb hr (by omega) (by simp [he])
  refine ⟨by rw [h], ?_, ?_, ?_⟩
  · have := sends_blockedTrace 10 0 k
    simp only [sends] at this ⊢
    simp [this]
  · have := sleeps_blockedTrace 10 0 k
    simp only [sleeps] at this ⊢
    simp [this, Event.isSleep]
  · intro h403 h404
    rw [h, he]; simp [statusError, h403, h404]

/-- Witness of C2: the sequence 0, 0, 5 with status 200 sleeps exactly twice
and succeeds on attempt 3. -/
theorem C2_makeRequest_succeeds_after_cooldowns_witness :
    (makeRequest scenarioTwoBlocks State.init).2.trace =
      State.init.trace ++ (blockedTrace 10 0 2 ++ [Event.Do]) ∧
    sends (blockedTrace 10 0 2 ++ [Event.Do]) = 2 + 1 ∧
    sleeps (blockedTrace 10 0 2 ++ [Event.Do]) = 2 ∧
    ((sampleResponse 200 "5").StatusCode ≠ 403 → (sampleResponse 200 "5").StatusCode ≠ 404 →
      (makeRequest scenarioTwoBlocks State.init).1 =
        .returned (some (sampleResponse 200 "5")) none) :=
  C2_makeRequest_succeeds_after_cooldowns 2 scenarioTwoBlocks State.init (sampleResponse 200 "5")
    (by decide)
    (fun i hi => ⟨sampleResponse 200 "0", by simp [scenarioTwoBlocks, hi], quota_sample_zero 200⟩)
    rfl rfl (by rw [quota_sample_five]; decide)

/-- C3: when the first `k < 10` attempts were rate-limited and attempt `k + 1`
yields a transport error with a remaining quota above 0, `makeRequest` returns
that same transport error (whatever the status of the response), and the send
of that attempt is the last effect: no sleep and no further send follow it. -/
theorem C3_makeRequest_transport_error_terminal (k : Nat) (Do : Nat → Outcome) (st : State)
    (r : Response) (e : GoError) (hk : k < 10) (hb : ∀ i, i < k → blocked (Do i))
    (hr : (Do k).resp = some r) (he : (Do k).err = some e) (hq : quota r > 0) :
    (makeRequest Do st).1 = .returned (some r) (some e) ∧
    (makeRequest Do st).2.trace = st.trace ++ (blockedTrace 10 0 k ++ [Event.Do]) ∧
    sends (blockedTrace 10 0 k ++ [Event.Do]) = k + 1 ∧
    sleeps (blockedTrace 10 0 k ++ [Event.Do]) = k := by
  have h := makeRequest_ret Do st k r hk hb hr (by simp [he]) hq
  refine ⟨by rw [h, he], by rw [h], ?_, ?_⟩
  · have := sends_blockedTrace 10 0 k
    simp only [sends] at this ⊢
    simp [this]
  · have := sleeps_blockedTrace 10 0 k
    simp only [sleeps] at this ⊢
    simp [this, Event.isSleep]

/-- Witness of C3: a first send whose redirect check fails, with quota 5. -/
theorem C3_makeRequest_transport_error_terminal_witness :
    (makeRequest redirectLimit State.init).1 =
      .returned (some (sampleResponse 302 "5")) (some (.lib "stopped after 10 redirects")) ∧
    (makeRequest redirectLimit State.init).2.trace =
      State.init.trace ++ (blockedTrace 10 0 0 ++ [Event.Do]) ∧
    sends (blockedTrace 10 0 0 ++ [Event.Do]) = 0 + 1 ∧
    sleeps (blockedTrace 10 0 0 ++ [Event.Do]) = 0 :=
  C3_makeRequest_transport_error_terminal 0 redirectLimit State.init
    (sampleResponse 302 "5") (.lib "stopped after 10 redirects") (by decide)
    (fun i hi => absurd hi (Nat.not_lt_zero i)) rfl rfl (by rw [quota_sample_five]; decide)

/-- A run that returns a response either went through the status
classification or ended at the early `return` of some attempt. -/
theorem loop_returned (Do : Nat → Outcome) (m : Nat) :
    ∀ (n t : Nat) (resp : Option Response) (err : Option GoError) (st : State)
      (r : Response) (e : Option GoError),
      (makeRequest.loop Do m n t resp err st).1 = .returned (some r) e →
      (∃ e0, e = statusError r e0) ∨
      (∃ j, j < n ∧ (∀ i, i < j → blocked (Do (t + i))) ∧ (Do (t + j)).resp = some r ∧
        (Do (t + j)).err = e ∧ e ≠ none ∧ quota r > 0) := by
  intro n
  induction n with
  | zero =>
    intro t resp err st r e h
    cases resp with
    | none => simp [makeRequest.loop, makeRequest.after] at h
    | some r0 =>
      simp only [makeRequest.loop, after_some, Result.returned.injEq, Option.some.injEq] at h
      obtain ⟨h1, h2⟩ := h
      subst h1
      exact Or.inl ⟨err, h2.symm⟩
  | succ n ih =>
    intro t resp err st r e h
    rw [makeRequest.loop] at h
    cases hresp : (Do t).resp with
    | none =>
      rw [body_nil Do m t st hresp] at h
      simp at h
    | some r0 =>
      by_cases hq : quota r0 = 0
      · rw [body_blocked Do m t st ⟨r0, hresp, hq⟩] at h
        rcases ih (t + 1) _ _ _ r e h with h1 | ⟨j, hj, hb, hr, he, hne, hpos⟩
        · exact Or.inl h1
        · refine Or.inr ⟨j + 1, by omega, ?_, ?_, ?_, hne, hpos⟩
          · intro i hi
            rcases Nat.eq_zero_or_pos i with hi0 | hipos
            · subst hi0
              exact ⟨r0, hresp, hq⟩
            · have := hb (i - 1) (by omega)
              rwa [show t + 1 + (i - 1) = t + i by omega] at this
          · rwa [show t + 1 + j = t + (j + 1) by omega] at hr
          · rwa [show t + 1 + j = t + (j + 1) by omega] at he
      · by_cases he : (Do t).err ≠ none ∧ quota r0 > 0
        · rw [body_ret Do m t st r0 hresp he.1 he.2] at h
          simp only [Result.returned.injEq, Option.some.injEq] at h
          obtain ⟨h1, h2⟩ := h
          subst h1
          refine Or.inr ⟨0, by omega, ?_, by simpa using hresp, by simpa using h2, ?_, he.2⟩
          · intro i hi
            omega
          · rw [← h2]; exact he.1
        · rw [body_exit Do m t st r0 hresp hq he] at h
          simp only [after_some, Result.returned.injEq, Option.some.injEq] at h
          obtain ⟨h1, h2⟩ := h
          subst h1
          exact Or.inl ⟨_, h2.symm⟩

/-- A pass of the loop starts with a send. -/
theorem loop_succ_trace (Do : Nat → Outcome) (m n t : Nat) (resp : Option Response)
    (err : Option GoError) (st : State) :
    ∃ evs, (makeRequest.loop Do m (n + 1) t resp err st).2.trace =
      st.trace ++ Event.Do :: evs := by
  rw [makeRequest.loop]
  cases hresp : (Do t).resp with
  | none =>
    rw [body_nil Do m t st hresp]
    exact ⟨[], rfl⟩
  | some r =>
    by_cases hq : quota r = 0
    · rw [body_blocked Do m t st ⟨r, hresp, hq⟩]
      obtain ⟨evs, h1, _⟩ := loop_sends_le Do m n (t + 1) (Do t).resp (Do t).err
        ⟨0, st.trace ++ [Event.Do, Event.Fprintf t m, Event.Sleep 30]⟩
      exact ⟨[Event.Fprintf t m, Event.Sleep 30] ++ evs, by simp [h1]⟩
    · by_cases he : (Do t).err ≠ none ∧ quota r > 0
      · rw [body_ret Do m t st r hresp he.1 he.2]
        exact ⟨[], rfl⟩
      · rw [body_exit Do m t st r hresp hq he]
        simp only [after_some]
        exact ⟨[], rfl⟩

/-- The error returned with a final response of status 403 or 404 is the fixed
status error, unless the run ended at the transport-error return. -/
theorem makeRequest_status_or_transport (Do : Nat → Outcome) (st : State) (r : Response)
    (e : Option GoError) (h : (makeRequest Do st).1 = .returned (some r) e) :
    (r.StatusCode = 403 →
      e = some (.New "API access forbidden") ∨
      (∃ j, j < 10 ∧ (∀ i, i < j → blocked (Do i)) ∧ (Do j).resp = some r ∧
        (Do j).err = e ∧ e ≠ none ∧ quota r > 0)) ∧
    (r.StatusCode = 404 →
      e = some (.New "Not found") ∨
      (∃ j, j < 10 ∧ (∀ i, i < j → blocked (Do i)) ∧ (Do j).resp = some r ∧
        (Do j).err = e ∧ e ≠ none ∧ quota r > 0)) := by
  have key := loop_returned Do 10 10 0 none none st r e h
  simp only [Nat.zero_add] at key
  constructor
  · intro h403
    rcases key with ⟨e0, he0⟩ | h2
    · left; rw [he0]; simp [statusError, h403]
    · right; exact h2
  · intro h404
    have h403 : r.StatusCode ≠ 403 := by omega
    rcases key with ⟨e0, he0⟩ | h2
    · left; rw [he0]; simp [statusError, h403, h404]
    · right; exact h2

/-- A response that `client.Do` returns together with an error has a 3xx status. -/
theorem receivable_status (o : Outcome) (r : Response) (e : Option GoError)
    (ho : o.receivable = true) (hr : o.resp = some r) (he : o.err = e) (hne : e ≠ none) :
    300 ≤ r.StatusCode ∧ r.StatusCode < 400 := by
  cases e with
  | none => exact absurd rfl hne
  | some e0 => simpa [Outcome.receivable, hr, he] using ho

/-- C4: for every run of `makeRequest` over sends that `client.Do` can answer
(a response comes with an error only as the 3xx response of a failed redirect
check), when the final response has status 403 the returned error is exactly
"API access forbidden", and when it has status 404 the returned error is
exactly "Not found", whatever the response body is. -/
theorem C4_makeRequest_status_error_fixed (Do : Nat → Outcome) (st : State) (r : Response)
    (e : Option GoError) (hDo : ∀ t, (Do t).receivable = true)
    (h : (makeRequest Do st).1 = .returned (some r) e) :
    (r.StatusCode = 403 → e = some (.New "API access forbidden")) ∧
    (r.StatusCode = 404 → e = some (.New "Not found")) := by
  have key := makeRequest_status_or_transport Do st r e h
  constructor
  · intro h403
    rcases key.1 h403 with h1 | ⟨j, _, _, hr, he, hne, _⟩
    · exact h1
    · have := receivable_status (Do j) r e (hDo j) hr he hne
      omega
  · intro h404
    rcases key.2 h404 with h1 | ⟨j, _, _, hr, he, hne, _⟩
    · exact h1
    · have := receivable_status (Do j) r e (hDo j) hr he hne
      omega

/-- Witness of C4: a 404 response with quota 3 and no transport error. -/
theorem C4_makeRequest_status_error_fixed_witness :
    (∀ t, (notFoundOnce t).receivable = true) ∧
    (makeRequest notFoundOnce State.init).1 =
      .returned (some (sampleResponse 404 "3")) (some (.New "Not found")) ∧
    (sampleResponse 404 "3").StatusCode = 404 ∧
    some (GoError.New "Not found") = some (.New "Not found") :=
  have h : (makeRequest notFoundOnce State.init).1 =
      .returned (some (sampleResponse 404 "3")) (some (.New "Not found")) := by
    rw [makeRequest_exit notFoundOnce State.init 0 (sampleResponse 404 "3") (by decide)
      (fun i hi => absurd hi (Nat.not_lt_zero i)) rfl
      (by rw [quota_sample_three]; decide) (by simp [notFoundOnce])]
    simp [statusError, sampleResponse, notFoundOnce]
  ⟨fun _ => rfl, h, rfl,
    (C4_makeRequest_status_error_fixed notFoundOnce State.init _ _ (fun _ => rfl) h).2 rfl⟩

/-- C5 (amended): for every attempt whose response has status 403 or 404 and
whose `x-dnsme-requestsRemaining` header reads as a quota other than 0,
`makeRequest` performs no cooldown sleep and no further send after that
attempt; when the header reads as 0 the attempt is followed by a cooldown
sleep and, unless it was the 10th attempt, by a further send. -/
theorem C5_makeRequest_status_terminal (k : Nat) (Do : Nat → Outcome) (st : State)
    (r : Response) (hk : k < 10) (hb : ∀ i, i < k → blocked (Do i))
    (hr : (Do k).resp = some r) (hs : r.StatusCode = 403 ∨ r.StatusCode = 404) :
    (quota r ≠ 0 →
      (makeRequest Do st).2.trace = st.trace ++ (blockedTrace 10 0 k ++ [Event.Do]) ∧
      sends (blockedTrace 10 0 k ++ [Event.Do]) = k + 1 ∧
      sleeps (blockedTrace 10 0 k ++ [Event.Do]) = k ∧
      ((Do k).err = none →
        (makeRequest Do st).1 = .returned (some r)
          (some (.New (if r.StatusCode = 403 then "API access forbidden" else "Not found"))))) ∧
    (quota r = 0 →
      (∃ evs, (makeRequest Do st).2.trace =
        st.trace ++ (blockedTrace 10 0 k ++ [Event.Do, Event.Fprintf k 10, Event.Sleep 30] ++ evs)) ∧
      (k < 9 → ∃ evs, (makeRequest Do st).2.trace =
        st.trace ++ (blockedTrace 10 0 k ++
          [Event.Do, Event.Fprintf k 10, Event.Sleep 30, Event.Do] ++ evs))) := by
  constructor
  · intro hq
    have hsends : sends (blockedTrace 10 0 k ++ [Event.Do]) = k + 1 := by
      have := sends_blockedTrace 10 0 k
      simp only [sends] at this ⊢
      simp [this]
    have hsleeps : sleeps (blockedTrace 10 0 k ++ [Event.Do]) = k := by
      have := sleeps_blockedTrace 10 0 k
      simp only [sleeps] at this ⊢
      simp [this, Event.isSleep]
    by_cases he : (Do k).err ≠ none ∧ quota r > 0
    · exact ⟨by rw [makeRequest_ret Do st k r hk hb hr he.1 he.2], hsends, hsleeps,
        fun hnone => absurd hnone he.1⟩
    · refine ⟨by rw [makeRequest_exit Do st k r hk hb hr hq he], hsends, hsleeps, ?_⟩
      intro _
      rw [makeRequest_exit Do st k r hk hb hr hq he]
      rcases hs with h403 | h404
      · simp [statusError, h403]
      · have h403 : r.StatusCode ≠ 403 := by omega
        simp [statusError, h403, h404]
  · intro hq
    have hb1 : ∀ i, i < k + 1 → blocked (Do i) := by
      intro i hi
      rcases Nat.lt_succ_iff_lt_or_eq.mp hi with h | h
      · exact hb i h
      · subst h; exact ⟨r, hr, hq⟩
    have hpre := makeRequest_after_blocked Do st (k + 1) (9 - k) (by omega) hb1
    constructor
    · obtain ⟨evs, h1, _⟩ := loop_sends_le Do 10 (9 - k) (k + 1)
        (if k + 1 = 0 then none else (Do (k + 1 - 1)).resp)
        (if k + 1 = 0 then none else (Do (k + 1 - 1)).err)
        ⟨if k + 1 = 0 then st.requestsRemaining else 0, st.trace ++ blockedTrace 10 0 (k + 1)⟩
      refine ⟨evs, ?_⟩
      rw [hpre, h1, blockedTrace_succ_right]
      simp
    · intro hk9
      obtain ⟨evs, h1⟩ := loop_succ_trace Do 10 (8 - k) (k + 1)
        (if k + 1 = 0 then none else (Do (k + 1 - 1)).resp)
        (if k + 1 = 0 then none else (Do (k + 1 - 1)).err)
        ⟨if k + 1 = 0 then st.requestsRemaining else 0, st.trace ++ blockedTrace 10 0 (k + 1)⟩
      refine ⟨evs, ?_⟩
      rw [hpre, show 9 - k = 8 - k + 1 by omega, h1, blockedTrace_succ_right]
      simp

/-- Witness of C5: a 404 response with quota 3 ends the run after one send. -/
theorem C5_makeRequest_status_terminal_witness :
    quota (sampleResponse 404 "3") ≠ 0 ∧
    (makeRequest notFoundOnce State.init).2.trace =
      State.init.trace ++ (blockedTrace 10 0 0 ++ [Event.Do]) ∧
    sends (blockedTrace 10 0 0 ++ [Event.Do]) = 0 + 1 ∧
    sleeps (blockedTrace 10 0 0 ++ [Event.Do]) = 0 ∧
    ((notFoundOnce 0).err = none →
      (makeRequest notFoundOnce State.init).1 = .returned (some (sampleResponse 404 "3"))
        (some (.New (if (sampleResponse 404 "3").StatusCode = 403 then "API access forbidden"
          else "Not found")))) :=
  have hq : quota (sampleResponse 404 "3") ≠ 0 := by rw [quota_sample_three]; decide
  ⟨hq, (C5_makeRequest_status_terminal 0 notFoundOnce State.init (sampleResponse 404 "3")
    (by decide) (fun i hi => absurd hi (Nat.not_lt_zero i)) rfl (Or.inr rfl)).1 hq⟩

/-- Counterexample to C5 as stated: the first attempt gets a 403 response whose
header reads 0; a cooldown sleep and a second send follow it, and the run
ends without error on the second response. -/
theorem C5_counterexample :
    (forbiddenThenOk 0).resp = some (sampleResponse 403 "0") ∧
    (sampleResponse 403 "0").StatusCode = 403 ∧
    (makeRequest forbiddenThenOk State.init).2.trace =
      [Event.Do, Event.Fprintf 0 10, Event.Sleep 30, Event.Do] ∧
    (makeRequest forbiddenThenOk State.init).1 = .returned (some (sampleResponse 200 "5")) none := by
  have h := makeRequest_exit forbiddenThenOk State.init 1 (sampleResponse 200 "5") (by decide)
    (fun i hi => ⟨sampleResponse 403 "0", by simp [forbiddenThenOk, hi], quota_sample_zero 403⟩)
    rfl (by rw [quota_sample_five]; decide) (by simp [forbiddenThenOk])
  refine ⟨rfl, rfl, ?_, ?_⟩
  · rw [h]; rfl
  · rw [h]; simp [statusError, sampleResponse, forbiddenThenOk]

/-- C10 (code evaluated at the failing input): a send that fails in transport
and yields no response makes `makeRequest` dereference the nil response when it
reads the quota header; no response/error pair is returned. -/
theorem C10_makeRequest_nil_response :
    (connectionRefused 0).resp = none ∧
    (connectionRefused 0).err = some (.lib "dial tcp: connection refused") ∧
    (makeRequest connectionRefused State.init).1 = .nilDereference ∧
    (makeRequest connectionRefused State.init).2.trace = [Event.Do] :=
  ⟨rfl, rfl, rfl, rfl⟩

/-! ## `strconv.Atoi` against decimal numerals -/

theorem utf8_lt (c : Char) : ∀ b ∈ utf8 c, b < 256 := by
  have hc : c.toNat < 1114112 := by
    have := c.valid
    simp only [Char.toNat, UInt32.isValidChar, Nat.isValidChar] at this ⊢
    omega
  intro b hb
  simp only [utf8] at hb
  split_ifs at hb <;> simp at hb <;> omega

theorem bytes_lt (s : String) : ∀ b ∈ bytes s, b < 256 := by
  intro b hb
  simp only [bytes, List.mem_flatMap] at hb
  obtain ⟨c, _, hc⟩ := hb
  exact utf8_lt c b hc

theorem digitsValueFrom_cons (n c : Nat) (cs : List Nat) :
    digitsValueFrom n (c :: cs) = digitsValueFrom (n * 10 + (c - 48)) cs := rfl

theorem le_digitsValueFrom (ds : List Nat) : ∀ n, n ≤ digitsValueFrom n ds := by
  induction ds with
  | nil => intro n; exact Nat.le_refl n
  | cons c cs ih =>
    intro n
    rw [digitsValueFrom_cons]
    have := ih (n * 10 + (c - 48))
    omega

theorem digitsValueFrom_lt (ds : List Nat) (hd : ds.all isDigit = true) :
    ∀ n, digitsValueFrom n ds < (n + 1) * 10 ^ ds.length := by
  induction ds with
  | nil => intro n; simp [digitsValueFrom]
  | cons c cs ih =>
    intro n
    simp only [List.all_cons, Bool.and_eq_true, isDigit, decide_eq_true_eq] at hd
    rw [digitsValueFrom_cons]
    have h1 := ih hd.2 (n * 10 + (c - 48))
    have h2 : n * 10 + (c - 48) + 1 ≤ (n + 1) * 10 := by omega
    calc digitsValueFrom (n * 10 + (c - 48)) cs
        < (n * 10 + (c - 48) + 1) * 10 ^ cs.length := h1
      _ ≤ ((n + 1) * 10) * 10 ^ cs.length := Nat.mul_le_mul_right _ h2
      _ = (n + 1) * 10 ^ (c :: cs).length := by
          rw [List.length_cons, Nat.pow_succ]; ring

/-- The fast path reads a run of digits to its value and rejects anything else. -/
theorem fast_eq (s : List Nat) (hs : ∀ b ∈ s, b < 256) :
    ∀ n, Atoi.fast s n = if s.all isDigit then some (digitsValueFrom n s) else none := by
  induction s with
  | nil => intro n; simp [Atoi.fast, digitsValueFrom]
  | cons c cs ih =>
    intro n
    have hc : c < 256 := hs c (List.mem_cons_self c cs)
    have hcs : ∀ b ∈ cs, b < 256 := fun b hb => hs b (List.mem_cons_of_mem c hb)
    simp only [Atoi.fast, List.all_cons, isDigit]
    by_cases hd : 48 ≤ c ∧ c ≤ 57
    · have h1 : ¬ (c + 256 - 48) % 256 > 9 := by omega
      have h2 : (c + 256 - 48) % 256 = c - 48 := by omega
      rw [if_neg h1, ih hcs, h2]
      simp [hd, isDigit, digitsValueFrom_cons]
    · have h1 : (c + 256 - 48) % 256 > 9 := by omega
      rw [if_pos h1]
      simp [hd]

theorem cutoff_ten : maxUint64 / 10 + 1 = 1844674407370955162 := by decide

/-- The slow path on a run of digits: the value, or saturation on overflow. -/
theorem parseUint_loop_digits (ds : List Nat) (hd : ds.all isDigit = true) :
    ∀ n, n < 2 ^ 64 →
      ParseUint.loop 10 (2 ^ 64 - 1) 1844674407370955162 ds n =
        if digitsValueFrom n ds ≤ 2 ^ 64 - 1 then (digitsValueFrom n ds, none)
        else (2 ^ 64 - 1, some .ErrRange) := by
  induction ds with
  | nil =>
    intro n hn
    have : n ≤ 2 ^ 64 - 1 := by omega
    rw [ParseUint.loop]
    simp only [digitsValueFrom, List.foldl_nil]
    rw [if_pos this]
  | cons c cs ih =>
    intro n hn
    simp only [List.all_cons, Bool.and_eq_true, isDigit, decide_eq_true_eq] at hd
    obtain ⟨hc, hcs⟩ := hd
    have hge := le_digitsValueFrom cs (n * 10 + (c - 48))
    rw [ParseUint.loop, if_pos hc, digitsValueFrom_cons]
    simp only
    rw [if_neg (by omega)]
    by_cases hcut : n ≥ 1844674407370955162
    · rw [if_pos hcut, if_neg (by omega)]
    · rw [if_neg hcut]
      have hmul : n * 10 % 2 ^ 64 = n * 10 := Nat.mod_eq_of_lt (by omega)
      rw [hmul]
      by_cases hov : n * 10 + (c - 48) < 2 ^ 64
      · have hadd : (n * 10 + (c - 48)) % 2 ^ 64 = n * 10 + (c - 48) := Nat.mod_eq_of_lt hov
        rw [hadd, if_neg (by omega), ih hcs _ hov]
      · have hwrap : (n * 10 + (c - 48)) % 2 ^ 64 < n * 10 := by omega
        rw [if_pos (Or.inl hwrap), if_neg (by omega)]

theorem parseUint_digits (ds : List Nat) (hne : ds ≠ []) (hd : ds.all isDigit = true) :
    ParseUint ds 10 0 =
      if digitsValue ds ≤ 2 ^ 64 - 1 then (digitsValue ds, none)
      else (2 ^ 64 - 1, some .ErrRange) := by
  have h := parseUint_loop_digits ds hd 0 (by omega)
  simp only [ParseUint, if_neg hne, cutoff_ten, intSize, if_true]
  exact h

theorem digitsValue_lt_of_short (ds : List Nat) (hd : ds.all isDigit = true)
    (hl : ds.length ≤ 18) : digitsValue ds < 10 ^ 18 := by
  have h := digitsValueFrom_lt ds hd 0
  have h2 : 10 ^ ds.length ≤ 10 ^ 18 := Nat.pow_le_pow_right (by omega) hl
  simp only [digitsValue]
  omega

/-- `ParseInt` on a sign byte followed by digits (`neg` tells a minus sign). -/
theorem parseInt_signed (c : Nat) (cs : List Nat) (hc : c = 43 ∨ c = 45) (hne : cs ≠ [])
    (hd : cs.all isDigit = true) :
    ParseInt (c :: cs) 10 0 =
      if c = 45 then
        (if digitsValue cs > 2 ^ 63 then (minInt, some .ErrRange) else (-(digitsValue cs : Int), none))
      else
        (if digitsValue cs ≥ 2 ^ 63 then (maxInt, some .ErrRange) else ((digitsValue cs : Int), none)) := by
  simp only [ParseInt, if_pos hc, parseUint_digits cs hne hd, intSize, minInt, maxInt]
  by_cases hov : digitsValue cs ≤ 2 ^ 64 - 1
  · rw [if_pos hov]
    simp only
    rcases hc with h | h
    · subst h
      by_cases h63 : digitsValue cs ≥ 2 ^ 63
      · simp [h63]
      · simp [h63]
    · subst h
      by_cases h63 : digitsValue cs > 2 ^ 63
      · simp [h63]
      · simp [h63]
  · rw [if_neg hov]
    simp only
    rcases hc with h | h
    · subst h
      have h63 : 9223372036854775808 ≤ digitsValue cs := by omega
      simp [h63]
    · subst h
      have h63 : 9223372036854775808 < digitsValue cs := by omega
      simp [h63]

/-- `ParseInt` on a run of digits without a sign. -/
theorem parseInt_unsigned (c : Nat) (cs : List Nat) (hd : (c :: cs).all isDigit = true) :
    ParseInt (c :: cs) 10 0 =
      if digitsValue (c :: cs) ≥ 2 ^ 63 then (maxInt, some .ErrRange)
      else ((digitsValue (c :: cs) : Int), none) := by
  have hc : ¬ (c = 43 ∨ c = 45) := by
    simp only [List.all_cons, Bool.and_eq_true, isDigit, decide_eq_true_eq] at hd
    omega
  have hc45 : ¬ c = 45 := fun h => hc (Or.inr h)
  simp only [ParseInt, if_neg hc, parseUint_digits (c :: cs) (List.cons_ne_nil c cs) hd, intSize,
    maxInt]
  by_cases hov : digitsValue (c :: cs) ≤ 2 ^ 64 - 1
  · rw [if_pos hov]
    simp only
    by_cases h63 : digitsValue (c :: cs) ≥ 2 ^ 63
    · simp [h63, hc45]
    · simp [h63, hc45]
  · rw [if_neg hov]
    simp only
    have h63 : 9223372036854775808 ≤ digitsValue (c :: cs) := by omega
    simp [h63, hc45]

/-- The fast path of `Atoi` on a sign byte followed by digits. -/
theorem atoiBytes_fast_signed (c : Nat) (cs : List Nat) (hb : ∀ x ∈ cs, x < 256)
    (hc : c = 45 ∨ c = 43) (hne : cs ≠ []) (hd : cs.all isDigit = true)
    (hl : (c :: cs).length < 19) :
    AtoiBytes (c :: cs) =
      if c = 45 then (-(digitsValue cs : Int), none) else ((digitsValue cs : Int), none) := by
  have hpos : 0 < (c :: cs).length ∧ (c :: cs).length < 19 := ⟨by simp, hl⟩
  have hlen : ¬ cs.length < 1 := by
    cases cs with
    | nil => exact absurd rfl hne
    | cons _ _ => simp
  simp only [AtoiBytes, if_pos hpos, if_pos hc, if_neg hlen, fast_eq cs hb 0, hd, if_true,
    digitsValue]

/-- The fast path of `Atoi` on a run of digits without a sign. -/
theorem atoiBytes_fast_unsigned (c : Nat) (cs : List Nat) (hb : ∀ x ∈ c :: cs, x < 256)
    (hd : (c :: cs).all isDigit = true) (hl : (c :: cs).length < 19) :
    AtoiBytes (c :: cs) = ((digitsValue (c :: cs) : Int), none) := by
  have hpos : 0 < (c :: cs).length ∧ (c :: cs).length < 19 := ⟨by simp, hl⟩
  have hc : ¬ (c = 45 ∨ c = 43) := by
    simp only [List.all_cons, Bool.and_eq_true, isDigit, decide_eq_true_eq] at hd
    omega
  have hc45 : ¬ c = 45 := fun h => hc (Or.inl h)
  have hlen : ¬ (c :: cs).length < 1 := by simp
  simp only [AtoiBytes, if_pos hpos, if_neg hc, if_neg hlen, fast_eq (c :: cs) hb 0, hd, if_true,
    digitsValue, if_neg hc45]

/-- `Atoi` on a decimal numeral: the integer it carries when that fits a Go
`int`, else the nearest bound together with a range error. -/
theorem atoiBytes_decimal (b : List Nat) (hb : ∀ x ∈ b, x < 256) (v : Int)
    (hv : decimal? b = some v) :
    AtoiBytes b =
      (if v < minInt then minInt else if maxInt < v then maxInt else v,
        if minInt ≤ v ∧ v ≤ maxInt then none else some .ErrRange) := by
  cases b with
  | nil => simp [decimal?] at hv
  | cons c cs =>
    have hcs : ∀ x ∈ cs, x < 256 := fun x hx => hb x (List.mem_cons_of_mem c hx)
    simp only [decimal?] at hv
    by_cases h45 : c = 45
    · rw [if_pos h45] at hv
      split_ifs at hv with hnd
      simp only [Option.some.injEq] at hv
      subst hv
      by_cases hl : (c :: cs).length < 19
      · have hlt := digitsValue_lt_of_short cs hnd.2 (by simp at hl; omega)
        rw [atoiBytes_fast_signed c cs hcs (Or.inl h45) hnd.1 hnd.2 hl, if_pos h45]
        simp only [minInt, maxInt]
        rw [if_neg (by omega), if_neg (by omega), if_pos (by omega)]
      · have hslow : ¬ (0 < (c :: cs).length ∧ (c :: cs).length < 19) := fun h => hl h.2
        rw [AtoiBytes, if_neg hslow, parseInt_signed c cs (Or.inr h45) hnd.1 hnd.2, if_pos h45]
        simp only [minInt, maxInt]
        by_cases h63 : digitsValue cs > 2 ^ 63
        · rw [if_pos h63, if_pos (by omega), if_neg (by omega)]
        · rw [if_neg h63, if_neg (by omega), if_neg (by omega), if_pos (by omega)]
    · rw [if_neg h45] at hv
      by_cases h43 : c = 43
      · rw [if_pos h43] at hv
        split_ifs at hv with hnd
        simp only [Option.some.injEq] at hv
        subst hv
        by_cases hl : (c :: cs).length < 19
        · have hlt := digitsValue_lt_of_short cs hnd.2 (by simp at hl; omega)
          rw [atoiBytes_fast_signed c cs hcs (Or.inr h43) hnd.1 hnd.2 hl, if_neg h45]
          simp only [minInt, maxInt]
          rw [if_neg (by omega), if_neg (by omega), if_pos (by omega)]
        · have hslow : ¬ (0 < (c :: cs).length ∧ (c :: cs).length < 19) := fun h => hl h.2
          rw [AtoiBytes, if_neg hslow, parseInt_signed c cs (Or.inl h43) hnd.1 hnd.2, if_neg h45]
          simp only [minInt, maxInt]
          by_cases h63 : digitsValue cs ≥ 2 ^ 63
          · rw [if_pos h63, if_neg (by omega), if_pos (by omega), if_neg (by omega)]
          · rw [if_neg h63, if_neg (by omega), if_neg (by omega), if_pos (by omega)]
      · rw [if_neg h43] at hv
        split_ifs at hv with hnd
        simp only [Option.some.injEq] at hv
        subst hv
        by_cases hl : (c :: cs).length < 19
        · have hlt := digitsValue_lt_of_short (c :: cs) hnd (by omega)
          rw [atoiBytes_fast_unsigned c cs hb hnd hl]
          simp only [minInt, maxInt]
          rw [if_neg (by omega), if_neg (by omega), if_pos (by omega)]
        · have hslow : ¬ (0 < (c :: cs).length ∧ (c :: cs).length < 19) := fun h => hl h.2
          rw [AtoiBytes, if_neg hslow, parseInt_unsigned c cs hnd]
          simp only [minInt, maxInt]
          by_cases h63 : digitsValue (c :: cs) ≥ 2 ^ 63
          · rw [if_pos h63, if_neg (by omega), if_pos (by omega), if_neg (by omega)]
          · rw [if_neg h63, if_neg (by omega), if_neg (by omega), if_pos (by omega)]

theorem parseInt_cases (s : List Nat) :
    ((ParseInt s 10 0).2 = some .ErrSyntax → (ParseInt s 10 0).1 = 0) ∧
    ((ParseInt s 10 0).2 = some .ErrRange →
      (ParseInt s 10 0).1 = maxInt ∨ (ParseInt s 10 0).1 = minInt) := by
  cases s with
  | nil => simp [ParseInt]
  | cons c cs =>
    simp only [ParseInt]
    generalize ParseUint (if c = 43 ∨ c = 45 then cs else c :: cs) 10 0 = p
    obtain ⟨un, err⟩ := p
    simp only [intSize, minInt, maxInt]
    split_ifs <;> simp_all

/-- A syntax error of `Atoi` comes with the value 0. -/
theorem atoiBytes_syntax_zero (b : List Nat) (h : (AtoiBytes b).2 = some .ErrSyntax) :
    (AtoiBytes b).1 = 0 := by
  unfold AtoiBytes at h ⊢
  split_ifs at h ⊢ with hlen
  · cases b with
    | nil => rfl
    | cons c cs =>
      simp only at h ⊢
      generalize Atoi.fast (if c = 45 ∨ c = 43 then cs else c :: cs) 0 = f at h ⊢
      generalize (if c = 45 ∨ c = 43 then cs else c :: cs).length = l at h ⊢
      cases f <;> split_ifs at h ⊢ <;> simp_all
  · exact (parseInt_cases b).1 h

/-- A range error of `Atoi` comes with the largest or the smallest `int`. -/
theorem atoiBytes_range_saturates (b : List Nat) (h : (AtoiBytes b).2 = some .ErrRange) :
    (AtoiBytes b).1 = maxInt ∨ (AtoiBytes b).1 = minInt := by
  unfold AtoiBytes at h ⊢
  split_ifs at h ⊢ with hlen
  · cases b with
    | nil => simp at h
    | cons c cs =>
      simp only at h ⊢
      generalize Atoi.fast (if c = 45 ∨ c = 43 then cs else c :: cs) 0 = f at h ⊢
      generalize (if c = 45 ∨ c = 43 then cs else c :: cs).length = l at h ⊢
      cases f <;> split_ifs at h ⊢ <;> simp_all
  · exact (parseInt_cases b).2 h

theorem parseUint_loop_range (base maxVal cutoff : Nat) (ds : List Nat) :
    ∀ n, (ParseUint.loop base maxVal cutoff ds n).2 = some .ErrRange →
      (ParseUint.loop base maxVal cutoff ds n).1 = maxVal := by
  induction ds with
  | nil => intro n h; simp [ParseUint.loop] at h
  | cons c cs ih =>
    intro n h
    rw [ParseUint.loop] at h ⊢
    simp only at h ⊢
    split_ifs at h ⊢ <;> first | rfl | (simp at h; done) | exact ih _ h

theorem parseUint_loop_not_digits (maxVal cutoff : Nat) (ds : List Nat)
    (hd : ¬ ds.all isDigit = true) :
    ∀ n, (ParseUint.loop 10 maxVal cutoff ds n).2 ≠ none := by
  induction ds with
  | nil => simp at hd
  | cons c cs ih =>
    intro n
    rw [ParseUint.loop]
    simp only [List.all_cons, Bool.and_eq_true, isDigit, decide_eq_true_eq, not_and] at hd
    by_cases hc : 48 ≤ c ∧ c ≤ 57
    · rw [if_pos hc]
      simp only
      split_ifs
      · simp
      · simp
      · simp
      · exact ih (hd hc) _
    · rw [if_neg hc]
      simp only
      split_ifs <;> first | (simp; done) | (exfalso; omega)

/-- `ParseInt` reports an error whenever its digits part is not a run of digits. -/
theorem parseInt_not_digits (c : Nat) (cs : List Nat)
    (h : ¬ ((if c = 43 ∨ c = 45 then cs else c :: cs) ≠ [] ∧
      (if c = 43 ∨ c = 45 then cs else c :: cs).all isDigit = true)) :
    (ParseInt (c :: cs) 10 0).2 ≠ none := by
  have hp : (ParseUint (if c = 43 ∨ c = 45 then cs else c :: cs) 10 0).2 ≠ none := by
    generalize (if c = 43 ∨ c = 45 then cs else c :: cs) = s1 at h ⊢
    unfold ParseUint
    by_cases hne : s1 = []
    · simp [hne]
    · rw [if_neg hne]
      exact parseUint_loop_not_digits _ _ s1 (fun hd => h ⟨hne, hd⟩) 0
  have hv : (ParseUint (if c = 43 ∨ c = 45 then cs else c :: cs) 10 0).2 = some .ErrRange →
      (ParseUint (if c = 43 ∨ c = 45 then cs else c :: cs) 10 0).1 = 2 ^ 64 - 1 := by
    generalize (if c = 43 ∨ c = 45 then cs else c :: cs) = s1
    unfold ParseUint
    by_cases hne : s1 = []
    · simp [hne]
    · rw [if_neg hne]
      simp only [intSize, if_true]
      exact parseUint_loop_range _ _ _ s1 0
  simp only [ParseInt]
  generalize ParseUint (if c = 43 ∨ c = 45 then cs else c :: cs) 10 0 = p at hp hv
  obtain ⟨un, err⟩ := p
  simp only at hp hv
  cases err with
  | none => exact absurd rfl hp
  | some e =>
    cases e with
    | ErrSyntax => simp
    | ErrRange =>
      have hun := hv rfl
      subst hun
      simp only [intSize]
      split_ifs <;> simp_all

/-- `Atoi` reports an error on every string that is not a decimal numeral, and
a syntax error with value 0 when the string has fewer than 19 bytes. -/
theorem atoiBytes_not_decimal (b : List Nat) (hb : ∀ x ∈ b, x < 256) (h : decimal? b = none) :
    (AtoiBytes b).2 ≠ none ∧ (b.length < 19 → AtoiBytes b = (0, some .ErrSyntax)) := by
  cases b with
  | nil => simp [AtoiBytes, ParseInt]
  | cons c cs =>
    have hcs : ∀ x ∈ cs, x < 256 := fun x hx => hb x (List.mem_cons_of_mem c hx)
    by_cases hl : (c :: cs).length < 19
    · have hpos : 0 < (c :: cs).length ∧ (c :: cs).length < 19 := ⟨by simp, hl⟩
      have key : AtoiBytes (c :: cs) = (0, some .ErrSyntax) := by
        simp only [decimal?] at h
        simp only [AtoiBytes, if_pos hpos]
        by_cases hc : c = 45 ∨ c = 43
        · rw [if_pos hc]
          have hnd : ¬ (cs ≠ [] ∧ cs.all isDigit = true) := by
            rcases hc with h45 | h43
            · rw [if_pos h45] at h
              intro hnd; rw [if_pos hnd] at h; simp at h
            · have h45 : ¬ c = 45 := by omega
              rw [if_neg h45, if_pos h43] at h
              intro hnd; rw [if_pos hnd] at h; simp at h
          by_cases hne : cs = []
          · subst hne; simp
          · have hlen : ¬ cs.length < 1 := by
              cases cs with
              | nil => exact absurd rfl hne
              | cons _ _ => simp
            have hd : ¬ cs.all isDigit = true := fun hd => hnd ⟨hne, hd⟩
            rw [if_neg hlen, fast_eq cs hcs 0, if_neg hd]
        · rw [if_neg hc]
          have h45 : ¬ c = 45 := fun h => hc (Or.inl h)
          have h43 : ¬ c = 43 := fun h => hc (Or.inr h)
          rw [if_neg h45, if_neg h43] at h
          have hd : ¬ (c :: cs).all isDigit = true := by
            intro hd; rw [if_pos hd] at h; simp at h
          have hlen : ¬ (c :: cs).length < 1 := by simp
          rw [if_neg hlen, fast_eq (c :: cs) hb 0, if_neg hd]
      exact ⟨by rw [key]; simp, fun _ => key⟩
    · have hslow : ¬ (0 < (c :: cs).length ∧ (c :: cs).length < 19) := fun h => hl h.2
      refine ⟨?_, fun h19 => absurd h19 hl⟩
      rw [AtoiBytes, if_neg hslow]
      apply parseInt_not_digits
      simp only [decimal?] at h
      by_cases h45 : c = 45
      · rw [if_pos h45] at h
        rw [if_pos (Or.inr h45)]
        intro hnd; rw [if_pos hnd] at h; simp at h
      · rw [if_neg h45] at h
        by_cases h43 : c = 43
        · rw [if_pos h43] at h
          rw [if_pos (Or.inl h43)]
          intro hnd; rw [if_pos hnd] at h; simp at h
        · rw [if_neg h43] at h
          rw [if_neg (by omega)]
          intro hnd; rw [if_pos hnd.2] at h; simp at h

/-! ## The global `requestsRemaining` -/

/-- One attempt with a response stores the quota read from that response. -/
theorem body_requestsRemaining (Do : Nat → Outcome) (m t : Nat) (st : State) (r : Response)
    (hr : (Do t).resp = some r) :
    (makeRequest.body Do m t st).2.requestsRemaining = quota r := by
  by_cases hq : quota r = 0
  · rw [body_blocked Do m t st ⟨r, hr, hq⟩, hq]
  · by_cases he : (Do t).err ≠ none ∧ quota r > 0
    · rw [body_ret Do m t st r hr he.1 he.2]
    · rw [body_exit Do m t st r hr hq he]

/-- When the loop returns a response, `requestsRemaining` is the quota read
from that response. -/
theorem loop_final_requestsRemaining (Do : Nat → Outcome) (m : Nat) :
    ∀ (n t : Nat) (resp : Option Response) (err : Option GoError) (st : State)
      (r : Response) (e : Option GoError),
      (∀ r0, resp = some r0 → st.requestsRemaining = quota r0) →
      (makeRequest.loop Do m n t resp err st).1 = .returned (some r) e →
      (makeRequest.loop Do m n t resp err st).2.requestsRemaining = quota r := by
  intro n
  induction n with
  | zero =>
    intro t resp err st r e hinv h
    cases resp with
    | none => simp [makeRequest.loop, makeRequest.after] at h
    | some r0 =>
      simp only [makeRequest.loop, after_some, Result.returned.injEq, Option.some.injEq] at h ⊢
      rw [← h.1]
      exact hinv r0 rfl
  | succ n ih =>
    intro t resp err st r e _ h
    rw [makeRequest.loop] at h ⊢
    cases hresp : (Do t).resp with
    | none =>
      rw [body_nil Do m t st hresp] at h
      simp at h
    | some r0 =>
      by_cases hq : quota r0 = 0
      · rw [body_blocked Do m t st ⟨r0, hresp, hq⟩] at h ⊢
        refine ih (t + 1) _ _ _ r e ?_ h
        intro r1 hr1
        rw [hresp] at hr1
        simp only [Option.some.injEq] at hr1
        subst hr1
        exact hq.symm
      · by_cases he : (Do t).err ≠ none ∧ quota r0 > 0
        · rw [body_ret Do m t st r0 hresp he.1 he.2] at h ⊢
          simp only [Result.returned.injEq, Option.some.injEq] at h
          rw [← h.1]
        · rw [body_exit Do m t st r0 hresp hq he] at h ⊢
          simp only [after_some, Result.returned.injEq, Option.some.injEq] at h ⊢
          rw [← h.1]

theorem atoi_empty : Atoi "" = (0, some .ErrSyntax) := by decide

theorem header_get_missing (h : Header) (key : String)
    (hm : h.values (CanonicalMIMEHeaderKey key) = []) : h.Get key = "" := by
  simp [Header.Get, hm]

/-- C6 (amended): after every attempt of `makeRequest` that yields a response,
the process-wide `requestsRemaining` equals the value `strconv.Atoi` returns
for the `x-dnsme-requestsRemaining` header of that response, its error being
discarded: the integer carried by the header when the header is a decimal
integer within the `int` range; 0 when the header is missing or empty, when
`Atoi` rejects it with a syntax error, and for every value of fewer than 19
bytes that is not a decimal integer; the largest `int` (or the smallest) when
the header is a decimal integer above (or below) the `int` range, and one of
these two bounds whenever `Atoi` reports a range error.  `Atoi` rejects every
value that is not a decimal integer.  When `makeRequest` returns a response,
`requestsRemaining` reflects that last response only. -/
theorem C6_requestsRemaining_tracks_header :
    (∀ (Do : Nat → Outcome) (m t : Nat) (st : State) (r : Response) (hdr : String),
      (Do t).resp = some r → r.Header.Get "x-dnsme-requestsRemaining" = hdr →
      (makeRequest.body Do m t st).2.requestsRemaining = (Atoi hdr).1 ∧
      (∀ v, decimal? (bytes hdr) = some v → minInt ≤ v → v ≤ maxInt →
        (makeRequest.body Do m t st).2.requestsRemaining = v) ∧
      (r.Header.values (CanonicalMIMEHeaderKey "x-dnsme-requestsRemaining") = [] →
        (makeRequest.body Do m t st).2.requestsRemaining = 0) ∧
      (hdr = "" → (makeRequest.body Do m t st).2.requestsRemaining = 0) ∧
      ((Atoi hdr).2 = some .ErrSyntax →
        (makeRequest.body Do m t st).2.requestsRemaining = 0) ∧
      (decimal? (bytes hdr) = none → (bytes hdr).length < 19 →
        (makeRequest.body Do m t st).2.requestsRemaining = 0) ∧
      (∀ v, decimal? (bytes hdr) = some v → maxInt < v →
        (Atoi hdr).2 = some .ErrRange ∧
        (makeRequest.body Do m t st).2.requestsRemaining = maxInt) ∧
      (∀ v, decimal? (bytes hdr) = some v → v < minInt →
        (Atoi hdr).2 = some .ErrRange ∧
        (makeRequest.body Do m t st).2.requestsRemaining = minInt) ∧
      (decimal? (bytes hdr) = none → (Atoi hdr).2 ≠ none) ∧
      ((Atoi hdr).2 = some .ErrRange →
        (makeRequest.body Do m t st).2.requestsRemaining = maxInt ∨
        (makeRequest.body Do m t st).2.requestsRemaining = minInt)) ∧
    (∀ (Do : Nat → Outcome) (st : State) (r : Response) (e : Option GoError),
      (makeRequest Do st).1 = .returned (some r) e →
      (makeRequest Do st).2.requestsRemaining =
        (Atoi (r.Header.Get "x-dnsme-requestsRemaining")).1) := by
  constructor
  · intro Do m t st r hdr hr hhdr
    have hrr : (makeRequest.body Do m t st).2.requestsRemaining = (Atoi hdr).1 := by
      rw [body_requestsRemaining Do m t st r hr, quota, hhdr]
    have hdec := atoiBytes_decimal (bytes hdr) (bytes_lt hdr)
    refine ⟨hrr, ?_, ?_, ?_, ?_, ?_, ?_, ?_, ?_, ?_⟩
    · intro v hv h1 h2
      rw [hrr, Atoi, hdec v hv]
      simp only
      rw [if_neg (by omega), if_neg (by omega)]
    · intro hm
      rw [hrr, ← hhdr, header_get_missing _ _ hm, atoi_empty]
    · intro h0
      rw [hrr, h0, atoi_empty]
    · intro hs
      rw [hrr]
      exact atoiBytes_syntax_zero (bytes hdr) hs
    · intro hn hl
      rw [hrr, Atoi, (atoiBytes_not_decimal (bytes hdr) (bytes_lt hdr) hn).2 hl]
    · intro v hv h1
      have hmm : minInt ≤ maxInt := by decide
      rw [hrr, Atoi, hdec v hv]
      simp only
      rw [if_neg (by omega), if_pos h1, if_neg (by omega)]
      exact ⟨rfl, rfl⟩
    · intro v hv h1
      rw [hrr, Atoi, hdec v hv]
      simp only
      rw [if_pos h1, if_neg (by omega)]
      exact ⟨rfl, rfl⟩
    · intro hn
      exact (atoiBytes_not_decimal (bytes hdr) (bytes_lt hdr) hn).1
    · intro hrange
      rw [hrr]
      exact atoiBytes_range_saturates (bytes hdr) hrange
  · intro Do st r e h
    exact loop_final_requestsRemaining Do 10 10 0 none none st r e (by simp) h

/-- Witness of C6: the third attempt of the scenario 0, 0, 5 stores 5. -/
theorem C6_requestsRemaining_tracks_header_witness :
    (makeRequest.body scenarioTwoBlocks 10 2 State.init).2.requestsRemaining = (Atoi "5").1 ∧
    (makeRequest.body scenarioTwoBlocks 10 2 State.init).2.requestsRemaining = 5 :=
  have h := C6_requestsRemaining_tracks_header.1 scenarioTwoBlocks 10 2 State.init
    (sampleResponse 200 "5") "5" rfl (by decide)
  ⟨h.1, h.2.1 5 (by decide) (by decide) (by decide)⟩

/-- Counterexample to C6 as stated: the header value 9223372036854775808 is out
of the `int` range and `Atoi` rejects it, yet `requestsRemaining` is then
9223372036854775807, not 0. -/
theorem C6_counterexample :
    (overRange 0).resp = some (sampleResponse 200 "9223372036854775808") ∧
    (sampleResponse 200 "9223372036854775808").Header.Get "x-dnsme-requestsRemaining" =
      "9223372036854775808" ∧
    (Atoi "9223372036854775808").2 = some .ErrRange ∧
    (makeRequest.body overRange 10 0 State.init).2.requestsRemaining = 9223372036854775807 ∧
    (makeRequest overRange State.init).2.requestsRemaining = 9223372036854775807 ∧
    (makeRequest overRange State.init).2.requestsRemaining ≠ 0 := by
  refine ⟨rfl, by decide, by decide, by decide, by decide, by decide⟩


/-! ## The HMAC header -/

theorem checkSum_length (data : List Nat) : (sha1.checkSum data).length = 20 := by
  simp [sha1.checkSum, sha1.putUint32]

theorem zipWith_replicate_right (f : Nat → Nat → Nat) (c : Nat) :
    ∀ (l : List Nat) (n : Nat), l.length ≤ n →
      List.zipWith f l (List.replicate n c) = l.map (fun a => f a c) := by
  intro l
  induction l with
  | nil => intro n _; simp
  | cons a as ih =>
    intro n hn
    cases n with
    | zero => simp at hn
    | succ n =>
      simp only [List.length_cons, Nat.add_le_add_iff_right] at hn
      simp [List.replicate_succ, ih n hn]

theorem copy_zero_block (B : Nat) (k : List Nat) (hk : k.length ≤ B) :
    copy (List.replicate B 0) k = k ++ List.replicate (B - k.length) 0 := by
  simp [copy, List.take_of_length_le hk]

theorem hmac_pad (B : Nat) (k : List Nat) (c : Nat) (hk : k.length ≤ B) :
    (copy (List.replicate B 0) k).map (fun b => b ^^^ c) =
      List.zipWith (fun a b => a ^^^ b) (k ++ List.replicate (B - k.length) 0)
        (List.replicate B c) := by
  rw [copy_zero_block B k hk, zipWith_replicate_right]
  simp only [List.length_append, List.length_replicate]
  omega

/-- The Go `hmac` object over a fresh hash computes HMAC as RFC 2104 defines
it, provided a digest is no longer than a block. -/
theorem hmac_eq_HMAC (H : List Nat → List Nat) (B : Nat) (hH : ∀ x, (H x).length ≤ B)
    (key text : List Nat) :
    ((hmac.New ⟨H, B, []⟩ key).Write text).Sum [] = HMAC H B key text := by
  by_cases hlen : key.length > B
  · simp only [hmac.Sum, hmac.Write, hmac.New, Hash.BlockSize, Hash.Write, Hash.Sum, Hash.Reset,
      HMAC, if_pos hlen, List.nil_append, List.length_nil, List.drop_zero, List.take_zero,
      hmac_pad B _ _ (hH key)]
  · have hB : key.length ≤ B := by omega
    simp only [hmac.Sum, hmac.Write, hmac.New, Hash.BlockSize, Hash.Write, Hash.Sum, Hash.Reset,
      HMAC, if_neg hlen, List.nil_append, List.length_nil, List.drop_zero, List.take_zero,
      hmac_pad B _ _ hB]

theorem hmac_eq_HMAC_SHA1 (key text : List Nat) :
    ((hmac.New sha1.New key).Write text).Sum [] = HMAC_SHA1 key text :=
  hmac_eq_HMAC sha1.checkSum 64 (fun x => by rw [checkSum_length]; omega) key text

/-- The SHA-1 model on the test vector "abc" of FIPS 180. -/
theorem sha1_abc :
    Sprintf_x (sha1.checkSum (bytes "abc")) = "a9993e364706816aba3e25717850c26c9cd0d89d" := by
  decide!

/-- The HMAC model on a test vector of RFC 2202 (key "Jefe"). -/
theorem hmac_sha1_jefe :
    Sprintf_x (((hmac.New sha1.New (bytes "Jefe")).Write (bytes "what do ya want for nothing?")).Sum []) =
      "effcdf6ae5eb2fa2d27416d5f184df9c259a7c79" := by
  decide!

theorem Sprintf_x_length (b : List Nat) : (Sprintf_x b).length = 2 * b.length := by
  simp only [Sprintf_x, String.length]
  induction b with
  | nil => rfl
  | cons x xs ih => simp [List.flatMap_cons, ih]; omega

theorem hexDigit_mem (n : Nat) (hn : n < 16) :
    "0123456789abcdef".data.contains (hexDigit n) = true := by
  interval_cases n <;> decide

theorem Sprintf_x_lower_hex (b : List Nat) :
    (Sprintf_x b).data.all (fun c => "0123456789abcdef".data.contains c) = true := by
  simp only [Sprintf_x]
  induction b with
  | nil => rfl
  | cons x xs ih =>
    simp only [List.flatMap_cons, List.all_append, List.all_cons, List.all_nil, Bool.and_true,
      Bool.and_eq_true]
    exact ⟨⟨hexDigit_mem _ (Nat.mod_lt _ (by omega)), hexDigit_mem _ (Nat.mod_lt _ (by omega))⟩, ih⟩

theorem canonical_keys :
    CanonicalMIMEHeaderKey "x-dnsme-apiKey" = "X-Dnsme-Apikey" ∧
    CanonicalMIMEHeaderKey "x-dnsme-requestDate" = "X-Dnsme-Requestdate" ∧
    CanonicalMIMEHeaderKey "x-dnsme-hmac" = "X-Dnsme-Hmac" ∧
    CanonicalMIMEHeaderKey "Accept" = "Accept" := by decide

theorem addDnsmeHeaders_values (env : Env) (r : Request) (k : String) :
    (addDnsmeHeaders env r).Header.values k =
      ((((r.Header.Add "x-dnsme-apiKey" env.api_key).Add "x-dnsme-requestDate"
        env.requestDate).Add "x-dnsme-hmac"
        (Sprintf_x (HMAC_SHA1 (bytes env.secret_key) (bytes env.requestDate)))).Add
        "Accept" "application/json").values k := by
  unfold addDnsmeHeaders
  simp only [hmac_eq_HMAC_SHA1]

/-- C7: for every secret key and every timestamp string `T` that
`addDnsmeHeaders` writes as `x-dnsme-requestDate`, the `x-dnsme-hmac` value it
adds to the same request is the lowercase hexadecimal encoding, 40 characters
long, of HMAC-SHA1 keyed by the bytes of the secret key over the bytes of `T`;
nothing else enters the value. -/
theorem C7_addDnsmeHeaders_hmac (env : Env) (r : Request) :
    (addDnsmeHeaders env r).Header.values (CanonicalMIMEHeaderKey "x-dnsme-requestDate") =
      r.Header.values (CanonicalMIMEHeaderKey "x-dnsme-requestDate") ++ [env.requestDate] ∧
    (addDnsmeHeaders env r).Header.values (CanonicalMIMEHeaderKey "x-dnsme-hmac") =
      r.Header.values (CanonicalMIMEHeaderKey "x-dnsme-hmac") ++
        [Sprintf_x (HMAC_SHA1 (bytes env.secret_key) (bytes env.requestDate))] ∧
    (Sprintf_x (HMAC_SHA1 (bytes env.secret_key) (bytes env.requestDate))).length = 40 ∧
    (Sprintf_x (HMAC_SHA1 (bytes env.secret_key) (bytes env.requestDate))).data.all
      (fun c => "0123456789abcdef".data.contains c) = true := by
  obtain ⟨k1, k2, k3, k4⟩ := canonical_keys
  refine ⟨?_, ?_, ?_, Sprintf_x_lower_hex _⟩
  · rw [addDnsmeHeaders_values]
    simp [Header.Add, k1, k2, k3, k4]
  · rw [addDnsmeHeaders_values]
    simp [Header.Add, k1, k2, k3, k4]
  · rw [Sprintf_x_length, HMAC_SHA1, HMAC, checkSum_length]

/-! ## Provider errors and the CNAME workaround -/

theorem intercalate_go (sep acc : String) (l : List String) :
    String.intercalate.go acc sep l = acc ++ (match l with
      | [] => ""
      | b :: bs => sep ++ String.intercalate.go b sep bs) := by
  induction l generalizing acc with
  | nil => simp [String.intercalate.go]
  | cons b bs ih =>
    simp only [String.intercalate.go]
    rw [ih (acc ++ sep ++ b), ih b]
    simp [String.append_assoc]

/-- Go `strings.Join` puts the separator between consecutive elements. -/
theorem Join_eq_intercalate (sep : String) (l : List String) :
    Join l sep = sep.intercalate l := by
  induction l with
  | nil => rfl
  | cons a as ih =>
    cases as with
    | nil => simp [Join, String.intercalate, String.intercalate.go]
    | cons b bs =>
      simp only [Join, ih, String.intercalate]
      rw [intercalate_go sep a (b :: bs)]
      simp [String.append_assoc]

theorem length_pos_of_ne_nil (l : List String) (h : l ≠ []) : l.length > 0 :=
  List.length_pos.mpr h

/-- The loop of `getDomainRecords` applies the CNAME workaround from index `i` on. -/
theorem getDomainRecords_loop_eq (domain : String) :
    ∀ (n : Nat) (done rest : List apiRecord), rest.length = n →
      getDomainRecords.loop domain n done.length (done ++ rest) =
        done ++ rest.map (withCNAMEData domain) := by
  intro n
  induction n with
  | zero =>
    intro done rest h
    have : rest = [] := List.length_eq_zero.mp h
    subst this
    simp [getDomainRecords.loop]
  | succ n ih =>
    intro done rest h
    cases rest with
    | nil => simp at h
    | cons rec rs =>
      simp only [List.length_cons, Nat.add_right_cancel_iff] at h
      have hget : (done ++ rec :: rs).get? done.length = some rec := by
        rw [List.get?_eq_getElem?, List.getElem?_append_right (Nat.le_refl _)]
        simp
      rw [getDomainRecords.loop, hget]
      simp only
      by_cases hc : rec.Type_ = "CNAME" ∧ rec.Data = ""
      · rw [if_pos hc]
        have hset : (done ++ rec :: rs).set done.length { rec with Data := domain ++ "." } =
            (done ++ [{ rec with Data := domain ++ "." }]) ++ rs := by
          simp
        have hlen : done.length + 1 = (done ++ [{ rec with Data := domain ++ "." }]).length := by
          simp
        rw [hset, hlen, ih _ rs h]
        simp [withCNAMEData, hc]
      · rw [if_neg hc]
        have happ : done ++ rec :: rs = (done ++ [rec]) ++ rs := by simp
        have hlen : done.length + 1 = (done ++ [rec]).length := by simp
        rw [happ, hlen, ih _ rs h]
        simp [withCNAMEData, hc]

theorem getDomainRecords_loop_map (domain : String) (records : List apiRecord) :
    getDomainRecords.loop domain records.length 0 records =
      records.map (withCNAMEData domain) := by
  have h := getDomainRecords_loop_eq domain records.length [] records rfl
  simpa using h

theorem getDomainInfo_decoded (env : Env) (domain : String) (st st1 : State) (req : Request)
    (resp : Response) (info : apiDomain)
    (hreq : env.NewRequest "GET" (env.api_url ++ "/domains/" ++ domain) none = .ok req)
    (hmk : makeRequest (env.Do (addDnsmeHeaders env req)) st = (.returned (some resp) none, st1))
    (hbody : resp.Body.err = none)
    (hdec : env.Unmarshal_apiDomain resp.Body.data = (info, none)) :
    getDomainInfo env domain st =
      if info.Error.length > 0 then (.returned info (some (.New (Join info.Error " "))), st1)
      else (.returned info none, st1) := by
  unfold getDomainInfo
  rw [hreq]
  simp only
  rw [hmk]
  simp only [ReadAll, hbody, hdec]

theorem addDomain_decoded (env : Env) (domain : apiDomain) (st st1 : State) (jsonBody : String)
    (req : Request) (resp : Response) (domainResponse : apiDomain)
    (hjson : env.Marshal_apiDomain domain = (jsonBody, none))
    (hreq : env.NewRequest "PUT" (env.api_url ++ "/domains/" ++ domain.Name) (some jsonBody) =
      .ok req)
    (hmk : makeRequest (env.Do (jsonRequest env req)) st = (.returned (some resp) none, st1))
    (hbody : resp.Body.err = none)
    (hdec : env.Unmarshal_apiDomain resp.Body.data = (domainResponse, none)) :
    addDomain env domain st =
      if domainResponse.Error.length > 0 then
        (.returned domainResponse (some (.New (Join domainResponse.Error " "))), st1)
      else (.returned domainResponse none, st1) := by
  unfold addDomain
  rw [hjson]
  simp only
  rw [hreq]
  simp only
  unfold jsonRequest at hmk
  rw [hmk]
  simp only [ReadAll, hbody, hdec]

theorem getDomainRecord_decoded (env : Env) (id domain : String) (st st1 : State) (req : Request)
    (resp : Response) (record : apiRecord)
    (hreq : env.NewRequest "GET" (env.api_url ++ "/domains/" ++ domain ++ "/records/" ++ id) none =
      .ok req)
    (hmk : makeRequest (env.Do (addDnsmeHeaders env req)) st = (.returned (some resp) none, st1))
    (hbody : resp.Body.err = none)
    (hdec : env.Unmarshal_apiRecord resp.Body.data = (record, none)) :
    getDomainRecord env id domain st =
      if record.Error.length > 0 then
        (.returned record (some (.New (Join record.Error " "))), st1)
      else (.returned (withCNAMEData domain record) none, st1) := by
  unfold getDomainRecord
  rw [hreq]
  simp only
  rw [hmk]
  simp only [ReadAll, hbody, hdec, withCNAMEData]
  split_ifs <;> rfl

theorem getDomainRecords_decoded (env : Env) (domain : String) (vals : Vals) (st st1 : State)
    (req : Request) (resp : Response) (records : List apiRecord)
    (hreq : env.NewRequest "GET" (env.api_url ++ "/domains/" ++ domain ++ "/records") none =
      .ok req)
    (hmk : makeRequest (env.Do (getDomainRecords.request env req vals)) st =
      (.returned (some resp) none, st1))
    (hbody : resp.Body.err = none)
    (hdec : env.Unmarshal_apiRecords resp.Body.data = (records, none)) :
    getDomainRecords env domain vals st =
      (.returned (records.map (withCNAMEData domain)) none, st1) := by
  unfold getDomainRecords
  rw [hreq]
  simp only
  unfold getDomainRecords.request at hmk
  rw [hmk]
  simp only [ReadAll, hbody, hdec, getDomainRecords_loop_map]

theorem addDomainRecord_add_decoded (env : Env) (domain : String) (r : apiRecord)
    (st st1 : State) (jsonBody : String) (req : Request) (resp : Response) (record : apiRecord)
    (hid : r.ID = 0)
    (hjson : env.Marshal_apiRecord r = (jsonBody, none))
    (hreq : env.NewRequest "POST" (env.api_url ++ "/domains/" ++ domain ++ "/records/")
      (some jsonBody) = .ok req)
    (hmk : makeRequest (env.Do (jsonRequest env req)) st = (.returned (some resp) none, st1))
    (hbody : resp.Body.err = none)
    (hdec : env.Unmarshal_apiRecord resp.Body.data = (record, none)) :
    addDomainRecord env domain r st =
      if record.Error.length > 0 then
        (.returned record (some (.New (Join record.Error " "))), st1)
      else (.returned record none, st1) := by
  unfold addDomainRecord
  rw [hjson]
  simp only [hid, if_true]
  rw [hreq]
  simp only
  unfold jsonRequest at hmk
  rw [hmk]
  simp only [ReadAll, hbody, hdec]
  simp

theorem addDomainRecord_update (env : Env) (domain : String) (r : apiRecord)
    (st st1 : State) (jsonBody : String) (req : Request) (resp : Option Response)
    (hid : r.ID ≠ 0)
    (hjson : env.Marshal_apiRecord r = (jsonBody, none))
    (hreq : env.NewRequest "PUT" (env.api_url ++ "/domains/" ++ domain ++ "/records/" ++ Itoa r.ID)
      (some jsonBody) = .ok req)
    (hmk : makeRequest (env.Do (jsonRequest env req)) st = (.returned resp none, st1)) :
    addDomainRecord env domain r st = (.returned apiRecord.zero none, st1) := by
  unfold addDomainRecord
  rw [hjson]
  simp only [hid, if_false]
  rw [hreq]
  simp only
  unfold jsonRequest at hmk
  rw [hmk]
  simp

theorem makeRequest_sampleEnv (req : Request) :
    makeRequest (sampleEnv.Do req) State.init = (.returned (some okResponse) none, ⟨5, [Event.Do]⟩) := by
  have hq : quota okResponse = 5 := by
    have := quota_sampleResponse 200 "5"
    have h5 : (Atoi "5").1 = 5 := by decide
    simp only [sampleResponse] at this
    rw [h5] at this
    simpa [okResponse, quota, Header.Get, Header.Add, Header.empty] using this
  rw [makeRequest_exit (sampleEnv.Do req) State.init 0 okResponse (by decide)
    (fun i hi => absurd hi (Nat.not_lt_zero i)) rfl (by rw [hq]; decide) (by simp [sampleEnv])]
  have hs : statusError okResponse ((sampleEnv.Do req) 0).err = none := by
    simp [statusError, okResponse, sampleEnv]
  rw [hs, hq]
  rfl

/-- C8 (amended): a non-empty provider error list on an otherwise successful
response is a failed operation for `getDomainInfo`, `addDomain`,
`getDomainRecord` and for `addDomainRecord` when it adds a record (`ID` is 0):
whenever `makeRequest` succeeds, the body is read and decodes to an envelope
whose error list is non-empty, the operation returns a non-nil error whose
text is the error strings joined by single spaces.  When `addDomainRecord`
updates a record (`ID` is not 0) the body is not read and the error is nil. -/
theorem C8_provider_errors_fail (env : Env) (st st1 : State) (resp : Response)
    (hbody : resp.Body.err = none) :
    (∀ (domain : String) (req : Request) (info : apiDomain),
      env.NewRequest "GET" (env.api_url ++ "/domains/" ++ domain) none = .ok req →
      makeRequest (env.Do (addDnsmeHeaders env req)) st = (.returned (some resp) none, st1) →
      env.Unmarshal_apiDomain resp.Body.data = (info, none) → info.Error ≠ [] →
      getDomainInfo env domain st =
        (.returned info (some (.New (" ".intercalate info.Error))), st1)) ∧
    (∀ (domain : apiDomain) (jsonBody : String) (req : Request) (domainResponse : apiDomain),
      env.Marshal_apiDomain domain = (jsonBody, none) →
      env.NewRequest "PUT" (env.api_url ++ "/domains/" ++ domain.Name) (some jsonBody) = .ok req →
      makeRequest (env.Do (jsonRequest env req)) st = (.returned (some resp) none, st1) →
      env.Unmarshal_apiDomain resp.Body.data = (domainResponse, none) →
      domainResponse.Error ≠ [] →
      addDomain env domain st =
        (.returned domainResponse (some (.New (" ".intercalate domainResponse.Error))), st1)) ∧
    (∀ (id domain : String) (req : Request) (record : apiRecord),
      env.NewRequest "GET" (env.api_url ++ "/domains/" ++ domain ++ "/records/" ++ id) none =
        .ok req →
      makeRequest (env.Do (addDnsmeHeaders env req)) st = (.returned (some resp) none, st1) →
      env.Unmarshal_apiRecord resp.Body.data = (record, none) → record.Error ≠ [] →
      getDomainRecord env id domain st =
        (.returned record (some (.New (" ".intercalate record.Error))), st1)) ∧
    (∀ (domain : String) (r : apiRecord) (jsonBody : String) (req : Request) (record : apiRecord),
      r.ID = 0 →
      env.Marshal_apiRecord r = (jsonBody, none) →
      env.NewRequest "POST" (env.api_url ++ "/domains/" ++ domain ++ "/records/")
        (some jsonBody) = .ok req →
      makeRequest (env.Do (jsonRequest env req)) st = (.returned (some resp) none, st1) →
      env.Unmarshal_apiRecord resp.Body.data = (record, none) → record.Error ≠ [] →
      addDomainRecord env domain r st =
        (.returned record (some (.New (" ".intercalate record.Error))), st1)) ∧
    (∀ (domain : String) (r : apiRecord) (jsonBody : String) (req : Request),
      r.ID ≠ 0 →
      env.Marshal_apiRecord r = (jsonBody, none) →
      env.NewRequest "PUT" (env.api_url ++ "/domains/" ++ domain ++ "/records/" ++ Itoa r.ID)
        (some jsonBody) = .ok req →
      makeRequest (env.Do (jsonRequest env req)) st = (.returned (some resp) none, st1) →
      addDomainRecord env domain r st = (.returned apiRecord.zero none, st1)) := by
  refine ⟨?_, ?_, ?_, ?_, ?_⟩
  · intro domain req info hreq hmk hdec herr
    rw [getDomainInfo_decoded env domain st st1 req resp info hreq hmk hbody hdec,
      if_pos (length_pos_of_ne_nil _ herr), Join_eq_intercalate]
  · intro domain jsonBody req domainResponse hjson hreq hmk hdec herr
    rw [addDomain_decoded env domain st st1 jsonBody req resp domainResponse hjson hreq hmk hbody
      hdec, if_pos (length_pos_of_ne_nil _ herr), Join_eq_intercalate]
  · intro id domain req record hreq hmk hdec herr
    rw [getDomainRecord_decoded env id domain st st1 req resp record hreq hmk hbody hdec,
      if_pos (length_pos_of_ne_nil _ herr), Join_eq_intercalate]
  · intro domain r jsonBody req record hid hjson hreq hmk hdec herr
    rw [addDomainRecord_add_decoded env domain r st st1 jsonBody req resp record hid hjson hreq
      hmk hbody hdec, if_pos (length_pos_of_ne_nil _ herr), Join_eq_intercalate]
  · intro domain r jsonBody req hid hjson hreq hmk
    exact addDomainRecord_update env domain r st st1 jsonBody req (some resp) hid hjson hreq hmk

/-- Witness of C8: `getDomainInfo` on a 200 response whose body decodes to a
domain with two provider errors. -/
theorem C8_provider_errors_fail_witness :
    getDomainInfo sampleEnv "example.com" State.init =
      (.returned ⟨"example.com", [], [], false, ["Domain is locked", "retry"]⟩
        (some (.New (" ".intercalate ["Domain is locked", "retry"]))), ⟨5, [Event.Do]⟩) :=
  (C8_provider_errors_fail sampleEnv State.init ⟨5, [Event.Do]⟩ okResponse rfl).1
    "example.com" _ _ rfl (makeRequest_sampleEnv _) rfl (by decide)

/-- Counterexample to C8 as stated: `addDomainRecord` updating a record (`ID`
7) gets a successful response whose body decodes to an envelope with a
non-empty error list, and returns a nil error. -/
theorem C8_counterexample :
    makeRequest (sampleEnv.Do (jsonRequest sampleEnv
      ⟨"PUT", "http://api.dnsmadeeasy.com/V1.2/domains/example.com/records/7", "", Header.empty,
        some "json"⟩)) State.init = (.returned (some okResponse) none, ⟨5, [Event.Do]⟩) ∧
    okResponse.Body.err = none ∧
    sampleEnv.Unmarshal_apiRecord okResponse.Body.data =
      (⟨"www", 0, "CNAME", "", "", 1800, "", ["Record is locked"]⟩, none) ∧
    addDomainRecord sampleEnv "example.com" ⟨"www", 7, "CNAME", "", "", 1800, "", []⟩ State.init =
      (.returned apiRecord.zero none, ⟨5, [Event.Do]⟩) := by
  refine ⟨makeRequest_sampleEnv _, rfl, rfl, ?_⟩
  exact addDomainRecord_update sampleEnv "example.com" _ State.init ⟨5, [Event.Do]⟩ "json"
    ⟨"PUT", "http://api.dnsmadeeasy.com/V1.2/domains/example.com/records/7", "", Header.empty,
      some "json"⟩ (some okResponse) (by decide) rfl rfl (makeRequest_sampleEnv _)

theorem append_dot_ne_empty (domain : String) : domain ++ "." ≠ "" := by
  intro h
  have := congrArg String.length h
  simp only [String.length_append] at this
  have h1 : ".".length = 1 := by decide
  have h0 : "".length = 0 := by decide
  omega

theorem withCNAMEData_data (domain : String) (rec : apiRecord)
    (h : (withCNAMEData domain rec).Type_ = "CNAME") : (withCNAMEData domain rec).Data ≠ "" := by
  unfold withCNAMEData at h ⊢
  by_cases hc : rec.Type_ = "CNAME" ∧ rec.Data = ""
  · rw [if_pos hc]
    exact append_dot_ne_empty domain
  · rw [if_neg hc] at h ⊢
    exact fun hd => hc ⟨h, hd⟩

/-- C9 (amended): for every domain name and every decoded list of records,
`getDomainRecords` returns a list of the same length and order in which each
record with `Type` "CNAME" and empty `Data` has `Data` equal to the domain
followed by a dot, and every other record and every other field is unchanged;
`getDomainRecord` does the same for its single record when the error list of
that record is empty.  So no CNAME record that either returns without an
error has an empty data field. -/
theorem C9_cname_data_filled (env : Env) (domain : String) (st st1 : State) (resp : Response)
    (hbody : resp.Body.err = none) :
    (∀ (vals : Vals) (req : Request) (records : List apiRecord),
      env.NewRequest "GET" (env.api_url ++ "/domains/" ++ domain ++ "/records") none = .ok req →
      makeRequest (env.Do (getDomainRecords.request env req vals)) st =
        (.returned (some resp) none, st1) →
      env.Unmarshal_apiRecords resp.Body.data = (records, none) →
      getDomainRecords env domain vals st =
        (.returned (records.map (withCNAMEData domain)) none, st1) ∧
      (records.map (withCNAMEData domain)).length = records.length ∧
      (∀ rec, rec ∈ records.map (withCNAMEData domain) → rec.Type_ = "CNAME" → rec.Data ≠ "")) ∧
    (∀ (id : String) (req : Request) (record : apiRecord),
      env.NewRequest "GET" (env.api_url ++ "/domains/" ++ domain ++ "/records/" ++ id) none =
        .ok req →
      makeRequest (env.Do (addDnsmeHeaders env req)) st = (.returned (some resp) none, st1) →
      env.Unmarshal_apiRecord resp.Body.data = (record, none) → record.Error = [] →
      getDomainRecord env id domain st = (.returned (withCNAMEData domain record) none, st1) ∧
      ((withCNAMEData domain record).Type_ = "CNAME" →
        (withCNAMEData domain record).Data ≠ "")) := by
  constructor
  · intro vals req records hreq hmk hdec
    refine ⟨getDomainRecords_decoded env domain vals st st1 req resp records hreq hmk hbody hdec,
      List.length_map _ _, ?_⟩
    intro rec hmem
    obtain ⟨rec0, _, h0⟩ := List.mem_map.mp hmem
    subst h0
    exact withCNAMEData_data domain rec0
  · intro id req record hreq hmk hdec herr
    refine ⟨?_, withCNAMEData_data domain record⟩
    rw [getDomainRecord_decoded env id domain st st1 req resp record hreq hmk hbody hdec,
      if_neg (by simp [herr])]

/-- Witness of C9: `getDomainRecords` on a decoded list of a CNAME record with
empty data and an A record. -/
theorem C9_cname_data_filled_witness :
    getDomainRecords sampleEnv "example.com" Vals.other State.init =
      (.returned
        ([⟨"www", 1, "CNAME", "", "", 1800, "", []⟩, ⟨"", 2, "A", "192.0.2.1", "", 1800, "", []⟩].map
          (withCNAMEData "example.com")) none, ⟨5, [Event.Do]⟩) ∧
    [⟨"www", 1, "CNAME", "", "", 1800, "", []⟩, ⟨"", 2, "A", "192.0.2.1", "", 1800, "", []⟩].map
        (withCNAMEData "example.com") =
      [⟨"www", 1, "CNAME", "example.com.", "", 1800, "", []⟩,
        ⟨"", 2, "A", "192.0.2.1", "", 1800, "", []⟩] :=
  ⟨((C9_cname_data_filled sampleEnv "example.com" State.init ⟨5, [Event.Do]⟩ okResponse rfl).1
    Vals.other _ _ rfl (makeRequest_sampleEnv _) rfl).1, by decide⟩

/-- Counterexample to C9 as stated: the record `getDomainRecord` decodes is a
CNAME record with empty data and a provider error; it is returned as decoded,
with its data field still empty. -/
theorem C9_counterexample :
    sampleEnv.Unmarshal_apiRecord okResponse.Body.data =
      (⟨"www", 0, "CNAME", "", "", 1800, "", ["Record is locked"]⟩, none) ∧
    getDomainRecord sampleEnv "5" "example.com" State.init =
      (.returned ⟨"www", 0, "CNAME", "", "", 1800, "", ["Record is locked"]⟩
        (some (.New "Record is locked")), ⟨5, [Event.Do]⟩) := by
  refine ⟨rfl, ?_⟩
  rw [getDomainRecord_decoded sampleEnv "5" "example.com" State.init ⟨5, [Event.Do]⟩ _ okResponse
    _ rfl (makeRequest_sampleEnv _) rfl rfl]
  rfl

end Dnsme
